import Mathlib

/-!
# go-cosmos: a shallow embedding of `cosmosdb/cosmosdb.go` and `main.go`

The program is a thin layer over the Azure Cosmos DB SDK.  The embedding keeps
the control flow of every function of the package and of `main`, and makes the
outside world explicit:

* the SDK client is a record of functions over an arbitrary remote state `σ`
  (what a remote call answers is not decided by this program);
* every call that leaves the program (SDK, `encoding/json`, `log`, `fmt`) is
  appended to a trace, so that "no request is issued" is a statement about
  the trace;
* a Go `error` is `Option GoError` (`none` is `nil`).

Go strings are byte sequences (`List (Fin 256)`): they are not required to be
valid UTF-8, and `encoding/json` treats the invalid ones specially.
-/

namespace GoCosmos

/-! ## Go values -/

/-- A Go `byte`. -/
abbrev Byte := Fin 256

/-- A Go `string` (or `[]byte`): any finite sequence of bytes. -/
abbrev GoString := List Byte

/-- The bytes of an ASCII source literal. -/
def ascii (s : String) : GoString := s.data.map (fun c => Fin.ofNat c.toNat)

/-- The non-nil values of Go's `error` interface that this program meets.
`responseError` is `*azcore.ResponseError`; `errorString` is what `errors.New`
and `fmt.Errorf` without `%w` build; `wrapError` is what `fmt.Errorf` with `%w`
builds (it has an `Unwrap` method); the last three are the errors of
`encoding/json`.  The text each of them renders is carried as data where it is
not determined by the program. -/
inductive GoError where
  | responseError (StatusCode : Int) (ErrorCode : String) (text : String)
  | errorString (s : String)
  | wrapError (msg : String) (err : GoError)
  | unsupportedTypeError (typeName : String)
  | jsonSyntaxError
  | unmarshalTypeError (Value : String) (Field : String)
  deriving DecidableEq, Repr

/-- The `Error()` method. -/
def GoError.Error : GoError → String
  | .responseError _ _ text => text
  | .errorString s => s
  | .wrapError msg _ => msg
  | .unsupportedTypeError typeName => "json: unsupported type: " ++ typeName
  | .jsonSyntaxError => "invalid character looking for beginning of value"
  | .unmarshalTypeError value field =>
      if field = "" then "json: cannot unmarshal " ++ value ++ " into Go value of type struct"
      else "json: cannot unmarshal " ++ value ++ " into Go struct field ." ++ field ++ " of type string"

/-- The fields of `azcore.ResponseError` that the program reads. -/
structure ResponseError where
  StatusCode : Int
  ErrorCode : String
  deriving DecidableEq, Repr

/-- The call `errors.As(err, &responseErr)` with `responseErr` of type
`*azcore.ResponseError`, for a non-nil `err`: the first error of that type in
the `Unwrap` chain, if there is one. -/
def errorsAs : GoError → Option ResponseError
  | .responseError status code _ => some ⟨status, code⟩
  | .wrapError _ err => errorsAs err
  | _ => none

/-- The closure `errorIs409` that `CreateDatabase`, `CreateContainer` and
`CreateItem` each declare:
`err != nil && errors.As(err, &responseErr) && responseErr.StatusCode == 409`. -/
def errorIs409 (err : Option GoError) : Bool :=
  match err with
  | none => false
  | some e =>
    match errorsAs e with
    | none => false
    | some responseErr => responseErr.StatusCode == 409

/-- `fmt.Errorf(format, err)` for a format that ends in `%s` and has no `%w`:
a fresh `errorString` holding the text before the verb followed by
`err.Error()`.  The result has no `Unwrap` method. -/
def fmtErrorf (textBeforeVerb : String) (err : GoError) : GoError :=
  .errorString (textBeforeVerb ++ err.Error)

/-! ## The SDK (`azcosmos`) as seen by the program -/

/-- `azcosmos.DatabaseProperties`. -/
structure DatabaseProperties where
  ID : GoString
  deriving DecidableEq, Repr

/-- `azcosmos.PartitionKeyDefinition`. -/
structure PartitionKeyDefinition where
  Paths : List GoString
  deriving DecidableEq, Repr

/-- `azcosmos.ContainerProperties`. -/
structure ContainerProperties where
  ID : GoString
  PartitionKeyDefinition : PartitionKeyDefinition
  deriving DecidableEq, Repr

/-- `azcosmos.ThroughputProperties` as built by `NewManualThroughputProperties`. -/
structure ThroughputProperties where
  manualThroughput : Int
  deriving DecidableEq, Repr

/-- `azcosmos.NewManualThroughputProperties`. -/
def NewManualThroughputProperties (throughput : Int) : ThroughputProperties := ⟨throughput⟩

/-- `azcosmos.CreateContainerOptions`. -/
structure CreateContainerOptions where
  ThroughputProperties : Option ThroughputProperties
  deriving DecidableEq, Repr

/-- `azcosmos.ConsistencyLevel`. -/
inductive ConsistencyLevel where
  | Strong | BoundedStaleness | Session | Eventual | ConsistentPrefix
  deriving DecidableEq, Repr

/-- `azcosmos.ItemOptions`. -/
structure ItemOptions where
  ConsistencyLevel : Option ConsistencyLevel
  deriving DecidableEq, Repr

/-- `azcosmos.PartitionKey` holding one string. -/
structure PartitionKey where
  value : GoString
  deriving DecidableEq, Repr

/-- `azcosmos.NewPartitionKeyString`. -/
def NewPartitionKeyString (value : GoString) : PartitionKey := ⟨value⟩

/-- `azcosmos.DatabaseResponse`, the part the program reads. -/
structure DatabaseResponse where
  ActivityID : String
  deriving DecidableEq, Repr

/-- `azcosmos.ContainerResponse`, the part the program reads. -/
structure ContainerResponse where
  ActivityID : String
  deriving DecidableEq, Repr

/-- `azcosmos.ItemResponse`, the part the program reads.  `RequestCharge` is a
`float32` that is only passed to the logger; it is carried as its bit
pattern. -/
structure ItemResponse where
  Value : GoString
  StatusCode : Int
  ActivityID : String
  RequestCharge : Nat
  deriving DecidableEq, Repr

/-- `*azcosmos.DatabaseClient`: the one method the program calls.  A remote
call reads and updates the remote state and answers a response or an error. -/
structure DatabaseClient (σ : Type) where
  CreateContainer : ContainerProperties → CreateContainerOptions → σ →
    Except GoError ContainerResponse × σ

/-- `*azcosmos.ContainerClient`: the three methods the program calls. -/
structure ContainerClient (σ : Type) where
  CreateItem : PartitionKey → GoString → ItemOptions → σ → Except GoError ItemResponse × σ
  ReadItem : PartitionKey → GoString → σ → Except GoError ItemResponse × σ
  DeleteItem : PartitionKey → GoString → σ → Except GoError ItemResponse × σ

/-- `*azcosmos.Client`.  `NewDatabase` and `NewContainer` build client objects
locally; they send nothing. -/
structure Client (σ : Type) where
  CreateDatabase : DatabaseProperties → σ → Except GoError DatabaseResponse × σ
  NewDatabase : GoString → Except GoError (DatabaseClient σ)
  NewContainer : GoString → GoString → Except GoError (ContainerClient σ)

/-- The document that `main` builds (an anonymous struct; its `json` tags give
the first two fields the keys `id` and `customerId`). -/
structure WriteDocument where
  ID : GoString
  CustomerId : GoString
  Title : GoString
  UserName : GoString
  EmailAddress : GoString
  PhoneNumber : GoString
  CreationDate : GoString
  deriving DecidableEq, Repr

/-- The struct `itemResponseBody` that `ReadItem` decodes into. -/
structure ReadDocument where
  ID : GoString
  CustomerId : GoString
  Title : GoString
  FirstName : GoString
  LastName : GoString
  EmailAddress : GoString
  PhoneNumber : GoString
  CreationDate : GoString
  deriving DecidableEq, Repr

/-- What can arrive in the parameter `item any` of `CreateItem`: the document
struct of `main`, whose encoding is modelled below, or any other Go value,
which is described by what `json.Marshal` answers for it. -/
inductive Item where
  | document (d : WriteDocument)
  | encodable (payload : GoString)
  | unencodable (err : GoError)
  deriving DecidableEq, Repr

/-- An argument of a `Printf` call. -/
inductive Arg where
  | str (s : GoString)
  | text (s : String)
  | int (n : Int)
  | charge (bits : Nat)
  | pk (p : PartitionKey)
  | err (e : GoError)
  deriving DecidableEq, Repr

/-- The calls of `main` into package `cosmosdb`, with their arguments. -/
inductive Call where
  | CreateDatabase (databaseName : GoString)
  | CreateContainer (databaseName containerName partitionKey : GoString)
  | CreateItem (databaseName containerName partitionKey : GoString) (item : Item)
  | ReadItem (databaseName containerName partitionKey itemId : GoString)
  | DeleteItem (databaseName containerName partitionKey itemId : GoString)
  deriving DecidableEq, Repr

/-- One entry of the trace: a call that leaves the program.  The first five
are the remote requests; `call` marks a call site of `main`. -/
inductive Event where
  | createDatabaseRequest (props : DatabaseProperties)
  | createContainerRequest (props : ContainerProperties) (opts : CreateContainerOptions)
  | createItemRequest (pk : PartitionKey) (body : GoString) (opts : ItemOptions)
  | readItemRequest (pk : PartitionKey) (itemId : GoString)
  | deleteItemRequest (pk : PartitionKey) (itemId : GoString)
  | newDatabase (id : GoString)
  | newContainer (databaseId containerId : GoString)
  | newKeyCredential (key : GoString)
  | newClientWithKey (endpoint : GoString)
  | jsonMarshal (item : Item)
  | jsonUnmarshal (data : GoString)
  | jsonMarshalIndent (v : ReadDocument)
  | logPrintf (format : String) (args : List Arg)
  | logFatal (text : String) (err : GoError)
  | fmtPrintf (format : String) (args : List Arg)
  | call (c : Call)
  deriving DecidableEq, Repr

/-- The remote requests among the events. -/
def Event.isRequest : Event → Bool
  | .createDatabaseRequest _ => true
  | .createContainerRequest _ _ => true
  | .createItemRequest _ _ _ => true
  | .readItemRequest _ _ => true
  | .deleteItemRequest _ _ => true
  | _ => false

/-- The calls into `encoding/json` among the events. -/
def Event.isJson : Event → Bool
  | .jsonMarshal _ => true
  | .jsonUnmarshal _ => true
  | .jsonMarshalIndent _ => true
  | _ => false

/-- The state the program runs in: the remote store and the trace so far. -/
structure World (σ : Type) where
  remote : σ
  trace : List Event

/-- Append one event to the trace. -/
def World.emit {σ : Type} (w : World σ) (e : Event) : World σ :=
  { w with trace := w.trace ++ [e] }

/-! ## `unicode/utf8` and `unicode/utf16` -/

/-- `utf8.RuneError`, also `unicode.ReplacementChar`. -/
def RuneError : Nat := 0xFFFD

/-- The conversion `byte(x)`: the low eight bits. -/
def toByte (n : Nat) : Byte := Fin.ofNat n

/-- The table `utf8.first`: what a first byte announces.  `0xF0` is an ASCII
byte, `0xF1` an invalid first byte; otherwise the low three bits are the length
of the sequence and the high four bits index `acceptRanges`. -/
def first (b : Nat) : Nat :=
  if b < 0x80 then 0xF0
  else if b < 0xC2 then 0xF1
  else if b < 0xE0 then 0x02
  else if b = 0xE0 then 0x13
  else if b < 0xED then 0x03
  else if b = 0xED then 0x23
  else if b < 0xF0 then 0x03
  else if b = 0xF0 then 0x34
  else if b < 0xF4 then 0x04
  else if b = 0xF4 then 0x44
  else 0xF1

/-- The table `utf8.acceptRanges`: the range allowed for the second byte. -/
def acceptRanges (i : Nat) : Nat × Nat :=
  if i = 0 then (0x80, 0xBF)
  else if i = 1 then (0xA0, 0xBF)
  else if i = 2 then (0x80, 0x9F)
  else if i = 3 then (0x90, 0xBF)
  else if i = 4 then (0x80, 0x8F)
  else (0, 0)

/-- The byte `p[i]` as a number (only read below the length). -/
def byteAt (p : GoString) (i : Nat) : Nat := (p.getD i 0).val

/-- `utf8.DecodeRune` (and `DecodeRuneInString`): the first rune of `p` and its
width; `(RuneError, 1)` for an invalid encoding, `(RuneError, 0)` for no
input.  Masks and shifts are written with `%`, `*` and `+`. -/
def DecodeRune (p : GoString) : Nat × Nat :=
  let n := p.length
  if n < 1 then (RuneError, 0) else
  let p0 := byteAt p 0
  let x := first p0
  if x ≥ 0xF0 then (if x % 2 = 0 then p0 else RuneError, 1) else
  let sz := x % 8
  let accept := acceptRanges (x / 16)
  if n < sz then (RuneError, 1) else
  let b1 := byteAt p 1
  if b1 < accept.1 ∨ accept.2 < b1 then (RuneError, 1) else
  if sz ≤ 2 then ((p0 % 32) * 64 + b1 % 64, 2) else
  let b2 := byteAt p 2
  if b2 < 0x80 ∨ 0xBF < b2 then (RuneError, 1) else
  if sz ≤ 3 then ((p0 % 16) * 4096 + (b1 % 64) * 64 + b2 % 64, 3) else
  let b3 := byteAt p 3
  if b3 < 0x80 ∨ 0xBF < b3 then (RuneError, 1) else
  ((p0 % 8) * 262144 + (b1 % 64) * 4096 + (b2 % 64) * 64 + b3 % 64, 4)

/-- `utf8.EncodeRune` (and `AppendRune`) for a rune that is not negative: the
bytes written.  Surrogates and runes above `MaxRune` are written as
`RuneError`. -/
def EncodeRune (r : Nat) : GoString :=
  if r ≤ 0x7F then [toByte r]
  else if r ≤ 0x7FF then [toByte (0xC0 + r / 64), toByte (0x80 + r % 64)]
  else if r > 0x10FFFF ∨ (0xD800 ≤ r ∧ r ≤ 0xDFFF) then [0xEF, 0xBF, 0xBD]
  else if r ≤ 0xFFFF then
    [toByte (0xE0 + r / 4096), toByte (0x80 + r / 64 % 64), toByte (0x80 + r % 64)]
  else
    [toByte (0xF0 + r / 262144), toByte (0x80 + r / 4096 % 64), toByte (0x80 + r / 64 % 64),
      toByte (0x80 + r % 64)]

/-- `utf16.IsSurrogate`. -/
def IsSurrogate (r : Nat) : Bool := 0xD800 ≤ r ∧ r < 0xE000

/-- `utf16.DecodeRune`, the second argument being `none` where the program
passes `-1`. -/
def utf16DecodeRune (r1 : Nat) (r2 : Option Nat) : Nat :=
  match r2 with
  | none => RuneError
  | some r2 =>
    if 0xD800 ≤ r1 ∧ r1 < 0xDC00 ∧ 0xDC00 ≤ r2 ∧ r2 < 0xE000 then
      (r1 - 0xD800) * 1024 + (r2 - 0xDC00) + 0x10000
    else RuneError

/-- `utf8.ValidString`: every position decodes to a rune.  The first argument
bounds the number of runes read; `ValidString` passes the length. -/
def validLoop : Nat → GoString → Bool
  | 0, s => s.isEmpty
  | _ + 1, [] => true
  | fuel + 1, b :: s =>
    let (c, size) := DecodeRune (b :: s)
    if c = RuneError ∧ size = 1 then false else validLoop fuel ((b :: s).drop size)

/-- `utf8.ValidString`. -/
def ValidString (s : GoString) : Bool := validLoop s.length s

/-- A string with every byte that is not part of a valid UTF-8 encoding
replaced by the encoding of `RuneError`; valid encodings are kept.  The first
argument bounds the number of runes read; `coerceUTF8` passes the length. -/
def coerceLoop : Nat → GoString → GoString
  | 0, _ => []
  | _ + 1, [] => []
  | fuel + 1, b :: s =>
    let (c, size) := DecodeRune (b :: s)
    if c = RuneError ∧ size = 1 then [0xEF, 0xBF, 0xBD] ++ coerceLoop fuel s
    else (b :: s).take size ++ coerceLoop fuel ((b :: s).drop size)

/-- The string that `encoding/json` makes of a Go string: "coerced to valid
UTF-8, replacing invalid bytes with the Unicode replacement rune". -/
def coerceUTF8 (s : GoString) : GoString := coerceLoop s.length s

/-! ## `encoding/json`: encoding -/

/-- The table `htmlSafeSet`: the ASCII bytes that `json.Marshal` copies as they
are (all from the space on, except the double quote, `&`, `<`, `>` and the
backslash). -/
def htmlSafeSet (b : Nat) : Bool :=
  0x20 ≤ b ∧ b < 0x80 ∧ b ≠ 0x22 ∧ b ≠ 0x26 ∧ b ≠ 0x3C ∧ b ≠ 0x3E ∧ b ≠ 0x5C

/-- The string `hex` of package json, indexed. -/
def hex (n : Nat) : Byte :=
  if n < 10 then toByte (0x30 + n) else toByte (0x61 + (n - 10))

/-- The escape that `appendString` writes for an ASCII byte outside
`htmlSafeSet` (releases of Go before 1.22 write `\u0008` and `\u000c` where
this one writes `\b` and `\f`; the decoder reads both forms as the same
byte). -/
def escapeByte (b : Byte) : GoString :=
  if b.val = 0x5C ∨ b.val = 0x22 then [0x5C, b]
  else if b.val = 0x08 then [0x5C, 0x62]
  else if b.val = 0x0C then [0x5C, 0x66]
  else if b.val = 0x0A then [0x5C, 0x6E]
  else if b.val = 0x0D then [0x5C, 0x72]
  else if b.val = 0x09 then [0x5C, 0x74]
  else [0x5C, 0x75, 0x30, 0x30, hex (b.val / 16), hex (b.val % 16)]

/-- The loop of `appendString` (with `escapeHTML` set, as `json.Marshal` sets
it) over the rest of the source string; the result is what is appended between
the two quotes.  The first argument bounds the number of iterations;
`appendString` passes the length. -/
def appendStringLoop : Nat → GoString → GoString
  | 0, _ => []
  | _ + 1, [] => []
  | fuel + 1, b :: src =>
    if b.val < 0x80 then
      if htmlSafeSet b.val then b :: appendStringLoop fuel src
      else escapeByte b ++ appendStringLoop fuel src
    else
      let (c, size) := DecodeRune ((b :: src).take 4)
      if c = RuneError ∧ size = 1 then
        [0x5C, 0x75, 0x66, 0x66, 0x66, 0x64] ++ appendStringLoop fuel src
      else if c = 0x2028 ∨ c = 0x2029 then
        [0x5C, 0x75, 0x32, 0x30, 0x32, hex (c % 16)] ++
          appendStringLoop fuel ((b :: src).drop size)
      else (b :: src).take size ++ appendStringLoop fuel ((b :: src).drop size)

/-- The function `appendString` of `encoding/json`: a JSON string literal. -/
def appendString (src : GoString) : GoString :=
  [0x22] ++ appendStringLoop src.length src ++ [0x22]

/-- One struct field as the struct encoder writes it: the quoted name, a
colon, the value. -/
def encodeField (name : String) (value : GoString) : GoString :=
  appendString (ascii name) ++ [0x3A] ++ appendString value

/-- The result of `json.Marshal` on the document struct of `main`: the fields
in declaration order under their keys. -/
def marshalWriteDocument (d : WriteDocument) : GoString :=
  [0x7B] ++ encodeField "id" d.ID ++
  [0x2C] ++ encodeField "customerId" d.CustomerId ++
  [0x2C] ++ encodeField "Title" d.Title ++
  [0x2C] ++ encodeField "UserName" d.UserName ++
  [0x2C] ++ encodeField "EmailAddress" d.EmailAddress ++
  [0x2C] ++ encodeField "PhoneNumber" d.PhoneNumber ++
  [0x2C] ++ encodeField "CreationDate" d.CreationDate ++ [0x7D]

/-- The call `json.Marshal(item)`. -/
def Marshal : Item → Except GoError GoString
  | .document d => .ok (marshalWriteDocument d)
  | .encodable payload => .ok payload
  | .unencodable err => .error err

/-- One field of the indented form: the key, a colon and a space, the value. -/
def indentField (name : String) (value : GoString) : GoString :=
  [0x0A, 0x20, 0x20, 0x20, 0x20] ++ appendString (ascii name) ++ [0x3A, 0x20] ++
    appendString value

/-- The call `json.MarshalIndent(itemResponseBody, "", "    ")` of `ReadItem`:
the struct has string fields only, so the encoder has no error to report. -/
def MarshalIndent (v : ReadDocument) : Except GoError GoString :=
  .ok ([0x7B] ++ indentField "id" v.ID ++
    [0x2C] ++ indentField "customerId" v.CustomerId ++
    [0x2C] ++ indentField "Title" v.Title ++
    [0x2C] ++ indentField "FirstName" v.FirstName ++
    [0x2C] ++ indentField "LastName" v.LastName ++
    [0x2C] ++ indentField "EmailAddress" v.EmailAddress ++
    [0x2C] ++ indentField "PhoneNumber" v.PhoneNumber ++
    [0x2C] ++ indentField "CreationDate" v.CreationDate ++ [0x0A, 0x7D])

/-! ## `encoding/json`: decoding

`json.Unmarshal` first checks the whole input with its scanner and then
decodes.  The model reads the input once into a tree, with the grammar of the
scanner, and then stores the tree into the struct: the input is accepted by
`parseTop` exactly when the scanner accepts it. -/

/-- A JSON value as read from the input.  A number keeps no digits: the struct
of `ReadItem` has no field that could hold one. -/
inductive JValue where
  | null
  | bool (b : Bool)
  | number
  | string (s : GoString)
  | array (elems : List JValue)
  | object (members : List (GoString × JValue))

/-- The constant `maxNestingDepth` of the scanner. -/
def maxNestingDepth : Nat := 10000

/-- The scanner's `isSpace`. -/
def isSpace (c : Byte) : Bool := c.val = 0x20 ∨ c.val = 0x09 ∨ c.val = 0x0D ∨ c.val = 0x0A

/-- Skip the white space the scanner allows between tokens. -/
def skipSpace : GoString → GoString
  | [] => []
  | c :: rest => if isSpace c then skipSpace rest else c :: rest

/-- The value of a hexadecimal digit, as `getu4` reads it. -/
def hexValue (c : Byte) : Option Nat :=
  if 0x30 ≤ c.val ∧ c.val ≤ 0x39 then some (c.val - 0x30)
  else if 0x61 ≤ c.val ∧ c.val ≤ 0x66 then some (c.val - 0x61 + 10)
  else if 0x41 ≤ c.val ∧ c.val ≤ 0x46 then some (c.val - 0x41 + 10)
  else none

/-- The function `getu4`: the rune of a leading `\uXXXX`, `none` for the
`-1` it answers otherwise. -/
def getu4 (s : GoString) : Option Nat :=
  match s with
  | b :: u :: h1 :: h2 :: h3 :: h4 :: _ =>
    if b.val = 0x5C ∧ u.val = 0x75 then
      match hexValue h1, hexValue h2, hexValue h3, hexValue h4 with
      | some d1, some d2, some d3, some d4 => some (d1 * 4096 + d2 * 256 + d3 * 16 + d4)
      | _, _, _, _ => none
    else none
  | _ => none

/-- The byte a one-letter escape stands for, for the letters the scanner
accepts after a backslash. -/
def unescape (e : Byte) : Option Byte :=
  if e.val = 0x22 ∨ e.val = 0x5C ∨ e.val = 0x2F then some e
  else if e.val = 0x62 then some 0x08
  else if e.val = 0x66 then some 0x0C
  else if e.val = 0x6E then some 0x0A
  else if e.val = 0x72 then some 0x0D
  else if e.val = 0x74 then some 0x09
  else none

/-- Put `pre` in front of the string a later step decodes. -/
def prepend (pre : GoString) (r : Option (GoString × GoString)) : Option (GoString × GoString) :=
  r.map (fun sr => (pre ++ sr.1, sr.2))

/-- A string literal after its opening quote: the scanner's string states
together with the loop of `unquoteBytes`.  The answer is the decoded string and
the input after the closing quote; `none` is a syntax error.  Bytes that are
not valid UTF-8 are replaced by `RuneError`, as in `unquoteBytes` (whose fast
path for strings without escapes returns the same bytes as its loop).  The
first argument bounds the number of iterations; `unquote` passes the length. -/
def unquoteLoop : Nat → GoString → Option (GoString × GoString)
  | 0, _ => none
  | _ + 1, [] => none
  | fuel + 1, c :: rest =>
    if c.val = 0x22 then some ([], rest)
    else if c.val = 0x5C then
      match rest with
      | [] => none
      | e :: rest1 =>
        if e.val = 0x75 then
          match getu4 (c :: e :: rest1) with
          | none => none
          | some rr =>
            let rest2 := rest1.drop 4
            if IsSurrogate rr then
              let dec := utf16DecodeRune rr (getu4 rest2)
              if dec ≠ RuneError then
                prepend (EncodeRune dec) (unquoteLoop fuel (rest2.drop 6))
              else prepend (EncodeRune RuneError) (unquoteLoop fuel rest2)
            else prepend (EncodeRune rr) (unquoteLoop fuel rest2)
        else
          match unescape e with
          | none => none
          | some b => prepend [b] (unquoteLoop fuel rest1)
    else if c.val < 0x20 then none
    else if c.val < 0x80 then prepend [c] (unquoteLoop fuel rest)
    else
      let (rr, size) := DecodeRune (c :: rest)
      prepend (EncodeRune rr) (unquoteLoop fuel ((c :: rest).drop size))

/-- A string literal after its opening quote. -/
def unquote (src : GoString) : Option (GoString × GoString) := unquoteLoop src.length src

/-- The scanner's `state1`..`stateE0` on digits: skip a run of digits. -/
def skipDigits : GoString → GoString
  | [] => []
  | c :: rest => if 0x30 ≤ c.val ∧ c.val ≤ 0x39 then skipDigits rest else c :: rest

/-- Is the byte a decimal digit. -/
def isDigit (c : Byte) : Bool := 0x30 ≤ c.val ∧ c.val ≤ 0x39

/-- The exponent of a number (`stateE`, `stateESign`, `stateE0`), if one
starts here. -/
def scanExponent (src : GoString) : Option GoString :=
  match src with
  | e :: rest =>
    if e.val = 0x65 ∨ e.val = 0x45 then
      match rest with
      | sign :: d :: rest1 =>
        if sign.val = 0x2B ∨ sign.val = 0x2D then
          if isDigit d then some (skipDigits rest1) else none
        else if isDigit sign then some (skipDigits (d :: rest1)) else none
      | [d] => if isDigit d then some [] else none
      | [] => none
    else some src
  | [] => some []

/-- The fraction and exponent of a number (`state0`, `stateDot`, `stateDot0`). -/
def scanFraction (src : GoString) : Option GoString :=
  match src with
  | dot :: rest =>
    if dot.val = 0x2E then
      match rest with
      | d :: rest1 => if isDigit d then scanExponent (skipDigits rest1) else none
      | [] => none
    else scanExponent src
  | [] => some []

/-- A number after its optional minus sign (`stateNeg`, `state0`, `state1`). -/
def scanInteger (src : GoString) : Option GoString :=
  match src with
  | d :: rest =>
    if d.val = 0x30 then scanFraction rest
    else if 0x31 ≤ d.val ∧ d.val ≤ 0x39 then scanFraction (skipDigits rest)
    else none
  | [] => none

/-- The rest of the input after the literal `word`, if the input starts with
it (`true`, `false`, `null` are read letter by letter). -/
def scanWord (word : GoString) (src : GoString) : Option GoString :=
  if word.isPrefixOf src then some (src.drop word.length) else none

mutual
/-- One JSON value and the input after it; `depth` counts the arrays and
objects that are open.  The first argument bounds the calls. -/
def parseValue : Nat → Nat → GoString → Option (JValue × GoString)
  | 0, _, _ => none
  | fuel + 1, depth, src =>
    match skipSpace src with
    | [] => none
    | c :: rest =>
      if c.val = 0x7B then
        if depth + 1 > maxNestingDepth then none
        else
          match skipSpace rest with
          | [] => none
          | c1 :: rest1 =>
            if c1.val = 0x7D then some (.object [], rest1)
            else (parseMembers fuel (depth + 1) (c1 :: rest1)).map
              (fun mr => (.object mr.1, mr.2))
      else if c.val = 0x5B then
        if depth + 1 > maxNestingDepth then none
        else
          match skipSpace rest with
          | [] => none
          | c1 :: rest1 =>
            if c1.val = 0x5D then some (.array [], rest1)
            else (parseElements fuel (depth + 1) (c1 :: rest1)).map
              (fun er => (.array er.1, er.2))
      else if c.val = 0x22 then (unquote rest).map (fun sr => (.string sr.1, sr.2))
      else if c.val = 0x2D then (scanInteger rest).map (fun r => (.number, r))
      else if isDigit c then (scanInteger (c :: rest)).map (fun r => (.number, r))
      else if c.val = 0x74 then (scanWord [0x72, 0x75, 0x65] rest).map (fun r => (.bool true, r))
      else if c.val = 0x66 then
        (scanWord [0x61, 0x6C, 0x73, 0x65] rest).map (fun r => (.bool false, r))
      else if c.val = 0x6E then (scanWord [0x75, 0x6C, 0x6C] rest).map (fun r => (.null, r))
      else none
/-- The members of an object from its first key to its closing brace. -/
def parseMembers : Nat → Nat → GoString → Option (List (GoString × JValue) × GoString)
  | 0, _, _ => none
  | fuel + 1, depth, src =>
    match skipSpace src with
    | [] => none
    | q :: rest =>
      if q.val ≠ 0x22 then none
      else
        match unquote rest with
        | none => none
        | some (key, rest1) =>
          match skipSpace rest1 with
          | [] => none
          | colon :: rest2 =>
            if colon.val ≠ 0x3A then none
            else
              match parseValue fuel depth rest2 with
              | none => none
              | some (v, rest3) =>
                match skipSpace rest3 with
                | [] => none
                | c :: rest4 =>
                  if c.val = 0x2C then
                    (parseMembers fuel depth rest4).map (fun mr => ((key, v) :: mr.1, mr.2))
                  else if c.val = 0x7D then some ([(key, v)], rest4)
                  else none
/-- The elements of an array from its first element to its closing bracket. -/
def parseElements : Nat → Nat → GoString → Option (List JValue × GoString)
  | 0, _, _ => none
  | fuel + 1, depth, src =>
    match parseValue fuel depth src with
    | none => none
    | some (v, rest) =>
      match skipSpace rest with
      | [] => none
      | c :: rest1 =>
        if c.val = 0x2C then (parseElements fuel depth rest1).map (fun er => (v :: er.1, er.2))
        else if c.val = 0x5D then some ([v], rest1)
        else none
end

/-- The whole input as one JSON value (`checkValid`): a value, then white
space only.  Every call below reads at least one byte before it calls again, so
the bound `data.length + 1` is never what stops the reading. -/
def parseTop (data : GoString) : Option JValue :=
  match parseValue (data.length + 1) 0 data with
  | none => none
  | some (v, rest) => if (skipSpace rest).isEmpty then some v else none

/-- The fields of the struct that `ReadItem` decodes into. -/
inductive ReadField where
  | ID | CustomerId | Title | FirstName | LastName | EmailAddress | PhoneNumber | CreationDate
  deriving DecidableEq, Repr

/-- The fields in declaration order. -/
def readFields : List ReadField :=
  [.ID, .CustomerId, .Title, .FirstName, .LastName, .EmailAddress, .PhoneNumber, .CreationDate]

/-- The JSON key of a field: its `json` tag, or else its Go name. -/
def ReadField.name : ReadField → String
  | .ID => "id"
  | .CustomerId => "customerId"
  | .Title => "Title"
  | .FirstName => "FirstName"
  | .LastName => "LastName"
  | .EmailAddress => "EmailAddress"
  | .PhoneNumber => "PhoneNumber"
  | .CreationDate => "CreationDate"

/-- Store a string into a field. -/
def ReadDocument.set (v : ReadDocument) (f : ReadField) (s : GoString) : ReadDocument :=
  match f with
  | .ID => { v with ID := s }
  | .CustomerId => { v with CustomerId := s }
  | .Title => { v with Title := s }
  | .FirstName => { v with FirstName := s }
  | .LastName => { v with LastName := s }
  | .EmailAddress => { v with EmailAddress := s }
  | .PhoneNumber => { v with PhoneNumber := s }
  | .CreationDate => { v with CreationDate := s }

/-- The function `foldName` as far as it can meet the name of a struct field
of this program: ASCII letters are folded to upper case, U+017F folds to `S`
and U+212A to `K`; `none` for a key that holds any other rune outside ASCII
(its folded form is outside ASCII too, so it equals no folded field name). -/
def foldName : GoString → Option GoString
  | [] => some []
  | c :: rest =>
    if c.val < 0x80 then
      (foldName rest).map
        (fun t => (if 0x61 ≤ c.val ∧ c.val ≤ 0x7A then toByte (c.val - 0x20) else c) :: t)
    else
      match rest with
      | [] => none
      | c1 :: rest1 =>
        if c.val = 0xC5 ∧ c1.val = 0xBF then (foldName rest1).map (fun t => 0x53 :: t)
        else
          match rest1 with
          | [] => none
          | c2 :: rest2 =>
            if c.val = 0xE2 ∧ c1.val = 0x84 ∧ c2.val = 0xAA then
              (foldName rest2).map (fun t => 0x4B :: t)
            else none

/-- The field a key selects in `object`: the field with exactly this name, or
else the first field whose folded name is the folded key. -/
def findField (key : GoString) : Option ReadField :=
  match readFields.find? (fun f => ascii f.name = key) with
  | some f => some f
  | none =>
    match foldName key with
    | none => none
    | some folded => readFields.find? (fun f => foldName (ascii f.name) = some folded)

/-- What `UnmarshalTypeError.Value` says for a JSON value. -/
def JValue.kind : JValue → String
  | .null => "null"
  | .bool _ => "bool"
  | .number => "number"
  | .string _ => "string"
  | .array _ => "array"
  | .object _ => "object"

/-- The decoder state that matters here: the struct being filled and
`savedError`, the first error met. -/
structure DecodeState where
  v : ReadDocument
  savedError : Option GoError

/-- The function `saveError`: keep the first error. -/
def DecodeState.saveError (st : DecodeState) (err : GoError) : DecodeState :=
  match st.savedError with
  | none => { st with savedError := some err }
  | some _ => st

/-- One member of the top-level object in `object`: an unknown key is skipped;
for a known key a string is stored, `null` leaves the field as it is, and any
other value is a type error that is saved while decoding goes on. -/
def storeMember (st : DecodeState) (member : GoString × JValue) : DecodeState :=
  match findField member.1 with
  | none => st
  | some f =>
    match member.2 with
    | .string s => { st with v := st.v.set f s }
    | .null => st
    | other => st.saveError (.unmarshalTypeError other.kind f.name)

/-- The call `json.Unmarshal(data, &v)` for `v` of the struct type of
`ReadItem`: the error returned and the struct afterwards. -/
def Unmarshal (data : GoString) (v : ReadDocument) : Option GoError × ReadDocument :=
  match parseTop data with
  | none => (some .jsonSyntaxError, v)
  | some (.object members) =>
    let st := members.foldl storeMember { v := v, savedError := none }
    (st.savedError, st.v)
  | some .null => (none, v)
  | some other => (some (.unmarshalTypeError other.kind ""), v)

/-! ## Package `cosmosdb` -/

/-- `cosmosdb.CreateDatabase` (cosmosdb.go, lines 27-48). -/
def CreateDatabase {σ : Type} (client : Client σ) (databaseName : GoString) (w : World σ) :
    Option GoError × World σ :=
  let databaseProperties : DatabaseProperties := { ID := databaseName }
  let w := w.emit (.createDatabaseRequest databaseProperties)
  match client.CreateDatabase databaseProperties w.remote with
  | (.error err, remote) =>
    let w := { w with remote := remote }
    if errorIs409 (some err) then
      (none, w.emit (.logPrintf "Database [%s] already exists\n" [.str databaseName]))
    else
      (some err, w)
  | (.ok databaseResp, remote) =>
    let w := { w with remote := remote }
    (none, w.emit (.logPrintf "Database [%v] created. ActivityId %s\n"
      [.str databaseName, .text databaseResp.ActivityID]))

/-- `cosmosdb.CreateContainer` (cosmosdb.go, lines 50-88). -/
def CreateContainer {σ : Type} (client : Client σ)
    (databaseName containerName partitionKey : GoString) (w : World σ) :
    Option GoError × World σ :=
  let w := w.emit (.newDatabase databaseName)
  match client.NewDatabase databaseName with
  | .error err => (some err, w)
  | .ok databaseClient =>
    let containerProperties : ContainerProperties :=
      { ID := containerName, PartitionKeyDefinition := { Paths := [partitionKey] } }
    let throughputProperties := NewManualThroughputProperties 400
    let options : CreateContainerOptions := { ThroughputProperties := some throughputProperties }
    let w := w.emit (.createContainerRequest containerProperties options)
    match databaseClient.CreateContainer containerProperties options w.remote with
    | (.error err, remote) =>
      let w := { w with remote := remote }
      if errorIs409 (some err) then
        (none, w.emit (.logPrintf "Container [%s] already exists\n" [.str containerName]))
      else
        (some err, w)
    | (.ok containerResponse, remote) =>
      let w := { w with remote := remote }
      (none, w.emit (.logPrintf "Container [%s] created. ActivityId %s\n"
        [.str containerName, .text containerResponse.ActivityID]))

/-- `cosmosdb.DeleteItem` (cosmosdb.go, lines 176-197). -/
def DeleteItem {σ : Type} (client : Client σ)
    (databaseName containerName partitionKey itemId : GoString) (w : World σ) :
    Option GoError × World σ :=
  let w := w.emit (.newContainer databaseName containerName)
  match client.NewContainer databaseName containerName with
  | .error err => (some (fmtErrorf "failed to create a container client:: " err), w)
  | .ok containerClient =>
    let pk := NewPartitionKeyString partitionKey
    let w := w.emit (.deleteItemRequest pk itemId)
    match containerClient.DeleteItem pk itemId w.remote with
    | (.error err, remote) => (some err, { w with remote := remote })
    | (.ok res, remote) =>
      let w := { w with remote := remote }
      (none, w.emit (.logPrintf
        "Status %d. Item %v deleted. ActivityId %s. Consuming %v Request Units.\n"
        [.int res.StatusCode, .pk pk, .text res.ActivityID, .charge res.RequestCharge]))

/-- `cosmosdb.CreateItem` (cosmosdb.go, lines 90-128). -/
def CreateItem {σ : Type} (client : Client σ)
    (databaseName containerName partitionKey : GoString) (item : Item) (w : World σ) :
    Option GoError × World σ :=
  let w := w.emit (.newContainer databaseName containerName)
  match client.NewContainer databaseName containerName with
  | .error err => (some (fmtErrorf "failed to create a container client: " err), w)
  | .ok containerClient =>
    let pk := NewPartitionKeyString partitionKey
    let w := w.emit (.jsonMarshal item)
    match Marshal item with
    | .error err => (some err, w)
    | .ok b =>
      let itemOptions : ItemOptions := { ConsistencyLevel := some .Session }
      let w := w.emit (.createItemRequest pk b itemOptions)
      match containerClient.CreateItem pk b itemOptions w.remote with
      | (.error err, remote) =>
        let w := { w with remote := remote }
        if errorIs409 (some err) then
          (none, w.emit (.logPrintf "Item with partitionkey value %s already exists\n" [.pk pk]))
        else
          (some err, w)
      | (.ok itemResponse, remote) =>
        let w := { w with remote := remote }
        (none, w.emit (.logPrintf
          "Status %d. Item %v created. ActivityId %s. Consuming %v Request Units.\n"
          [.int itemResponse.StatusCode, .pk pk, .text itemResponse.ActivityID,
            .charge itemResponse.RequestCharge]))

/-- The zero value of the struct `itemResponseBody`. -/
def ReadDocument.zero : ReadDocument :=
  { ID := [], CustomerId := [], Title := [], FirstName := [], LastName := [],
    EmailAddress := [], PhoneNumber := [], CreationDate := [] }

/-- `cosmosdb.ReadItem` (cosmosdb.go, lines 130-174). -/
def ReadItem {σ : Type} (client : Client σ)
    (databaseName containerName partitionKey itemId : GoString) (w : World σ) :
    Option GoError × World σ :=
  let w := w.emit (.newContainer databaseName containerName)
  match client.NewContainer databaseName containerName with
  | .error err => (some (fmtErrorf "failed to create a container client: " err), w)
  | .ok containerClient =>
    let pk := NewPartitionKeyString partitionKey
    let w := w.emit (.readItemRequest pk itemId)
    match containerClient.ReadItem pk itemId w.remote with
    | (.error err, remote) => (some err, { w with remote := remote })
    | (.ok itemResponse, remote) =>
      let w := { w with remote := remote }
      let w := w.emit (.jsonUnmarshal itemResponse.Value)
      match Unmarshal itemResponse.Value ReadDocument.zero with
      | (some err, _) => (some err, w)
      | (none, itemResponseBody) =>
        let w := w.emit (.jsonMarshalIndent itemResponseBody)
        match MarshalIndent itemResponseBody with
        | .error err => (some err, w)
        | .ok b =>
          let w := w.emit (.fmtPrintf "Read item with customerId %s\n"
            [.str itemResponseBody.CustomerId])
          let w := w.emit (.fmtPrintf "%s\n" [.str b])
          (none, w.emit (.logPrintf
            "Status %d. Item %v read. ActivityId %s. Consuming %v Request Units.\n"
            [.int itemResponse.StatusCode, .pk pk, .text itemResponse.ActivityID,
              .charge itemResponse.RequestCharge]))

/-! ## Package `main` -/

/-- The constants of package `config` that `main.go` reads.  The package is not
part of the sources at hand; its values are parameters. -/
structure Config where
  CosmosDbKey : GoString
  CosmosDbEndpoint : GoString
  DatabaseName : GoString
  ContainerName : GoString
  PartitionKey : GoString

/-- `azcosmos.KeyCredential`. -/
structure KeyCredential where
  key : GoString

/-- The two constructors of package `azcosmos` that `main` calls. -/
structure Azcosmos (σ : Type) where
  NewKeyCredential : GoString → Except GoError KeyCredential
  NewClientWithKey : GoString → KeyCredential → Except GoError (Client σ)

/-- The variable `item` of `main`. -/
def item : WriteDocument :=
  { ID := ascii "1",
    CustomerId := ascii "1",
    Title := ascii "Mr",
    UserName := ascii "testUser",
    EmailAddress := ascii "test@example.com",
    PhoneNumber := ascii "123-456-7890",
    CreationDate := [] }

/-- The pattern `if err != nil { log.Printf(format, err) }` after each step of
`main`. -/
def logIfFailed {σ : Type} (format : String) (r : Option GoError × World σ) : World σ :=
  match r.1 with
  | some err => r.2.emit (.logPrintf format [.err err])
  | none => r.2

/-- The five steps of `main` after the client has been built (main.go, lines
63-87). -/
def mainSteps {σ : Type} (cfg : Config) (client : Client σ) (w : World σ) : World σ :=
  let w := w.emit (.call (.CreateDatabase cfg.DatabaseName))
  let w := logIfFailed "createDatabase failed: %s\n" (CreateDatabase client cfg.DatabaseName w)
  let w := w.emit (.call (.CreateContainer cfg.DatabaseName cfg.ContainerName cfg.PartitionKey))
  let w := logIfFailed "createContainer failed: %s\n"
    (CreateContainer client cfg.DatabaseName cfg.ContainerName cfg.PartitionKey w)
  let w := w.emit
    (.call (.CreateItem cfg.DatabaseName cfg.ContainerName item.CustomerId (.document item)))
  let w := logIfFailed "createItem failed: %s\n"
    (CreateItem client cfg.DatabaseName cfg.ContainerName item.CustomerId (.document item) w)
  let w := w.emit
    (.call (.ReadItem cfg.DatabaseName cfg.ContainerName item.CustomerId item.ID))
  let w := logIfFailed "readItem failed: %s\n"
    (ReadItem client cfg.DatabaseName cfg.ContainerName item.CustomerId item.ID w)
  let w := w.emit
    (.call (.DeleteItem cfg.DatabaseName cfg.ContainerName item.CustomerId item.ID))
  logIfFailed "deleteItem failed: %s\n"
    (DeleteItem client cfg.DatabaseName cfg.ContainerName item.CustomerId item.ID w)

/-- The function `main` (main.go, lines 34-89): the exit status and the world
at exit.  `log.Fatal` ends the process with status 1. -/
def main {σ : Type} (cfg : Config) (sdk : Azcosmos σ) (w : World σ) : Nat × World σ :=
  let w := w.emit (.newKeyCredential cfg.CosmosDbKey)
  match sdk.NewKeyCredential cfg.CosmosDbKey with
  | .error err => (1, w.emit (.logFatal "Failed to create a credential: " err))
  | .ok cred =>
    let w := w.emit (.newClientWithKey cfg.CosmosDbEndpoint)
    match sdk.NewClientWithKey cfg.CosmosDbEndpoint cred with
    | .error err => (1, w.emit (.logFatal "Failed to create Azure Cosmos DB db client: " err))
    | .ok client => (0, mainSteps cfg client w)

/-! ## Concrete clients

Clients over a remote store without state, whose calls answer with fixed
outcomes, and a store of database names. -/

/-- A container client that answers each kind of request with a fixed outcome. -/
def fixedContainerClient (create read delete : Except GoError ItemResponse) :
    ContainerClient Unit :=
  { CreateItem := fun _ _ _ s => (create, s),
    ReadItem := fun _ _ s => (read, s),
    DeleteItem := fun _ _ s => (delete, s) }

/-- A database client that answers a create-container request with a fixed
outcome. -/
def fixedDatabaseClient (create : Except GoError ContainerResponse) : DatabaseClient Unit :=
  { CreateContainer := fun _ _ s => (create, s) }

/-- A client whose calls answer with fixed outcomes. -/
def fixedClient (createDatabase : Except GoError DatabaseResponse)
    (newDatabase : Except GoError (DatabaseClient Unit))
    (newContainer : Except GoError (ContainerClient Unit)) : Client Unit :=
  { CreateDatabase := fun _ s => (createDatabase, s),
    NewDatabase := fun _ => newDatabase,
    NewContainer := fun _ _ => newContainer }

/-- A response error with status 409. -/
def conflict : GoError := .responseError 409 "Conflict" "409 Conflict"

/-- A response error with status 404. -/
def notFound : GoError := .responseError 404 "NotFound" "404 Not Found"

/-- An item response with an empty body. -/
def emptyResponse : ItemResponse :=
  { Value := [], StatusCode := 204, ActivityID := "", RequestCharge := 0 }

/-- A world with an empty trace over the store without state. -/
def emptyWorld : World Unit := { remote := (), trace := [] }

/-- The remote store of the idempotence property: the names of the databases
that exist.  A create-database request adds an absent name and answers with a
409 response error for a present one. -/
def storeCreateDatabase (props : DatabaseProperties) (store : List GoString) :
    Except GoError DatabaseResponse × List GoString :=
  if props.ID ∈ store then (.error conflict, store)
  else (.ok { ActivityID := "" }, props.ID :: store)

/-- A client over the store of database names: `base` with its
`CreateDatabase` replaced by `storeCreateDatabase`. -/
def storeClient (base : Client (List GoString)) : Client (List GoString) :=
  { base with CreateDatabase := storeCreateDatabase }

/-- The chain of an error: the error itself, then what `Unwrap` gives, and so
on. -/
def GoError.chain : GoError → List GoError
  | .wrapError msg err => .wrapError msg err :: err.chain
  | e => [e]

/-- The call site an event marks, if it marks one. -/
def Event.asCall : Event → Option Call
  | .call c => some c
  | _ => none

/-- A client whose database and container clients can be built and all of
whose remote requests fail with a 404 response error. -/
def failingClient : Client Unit :=
  fixedClient (.error notFound) (.ok (fixedDatabaseClient (.error notFound)))
    (.ok (fixedContainerClient (.error notFound) (.error notFound) (.error notFound)))

/-- The remote request an event is, if it is one. -/
def Event.asRequest (e : Event) : Option Event :=
  if e.isRequest then some e else none

/-- The package `azcosmos` with constructors that succeed and hand out
`client`. -/
def fixedAzcosmos (client : Client Unit) : Azcosmos Unit :=
  { NewKeyCredential := fun key => .ok { key := key },
    NewClientWithKey := fun _ _ => .ok client }

/-- A configuration. -/
def sampleConfig : Config :=
  { CosmosDbKey := ascii "key",
    CosmosDbEndpoint := ascii "https://localhost:8081",
    DatabaseName := ascii "db",
    ContainerName := ascii "container",
    PartitionKey := ascii "/customerId" }

/-- The fields of the document of `main`, by their Go names. -/
def WriteDocument.fields (d : WriteDocument) : List (String × GoString) :=
  [("ID", d.ID), ("CustomerId", d.CustomerId), ("Title", d.Title), ("UserName", d.UserName),
   ("EmailAddress", d.EmailAddress), ("PhoneNumber", d.PhoneNumber),
   ("CreationDate", d.CreationDate)]

/-- The fields of the struct of `ReadItem`, by their Go names. -/
def ReadDocument.fields (v : ReadDocument) : List (String × GoString) :=
  [("ID", v.ID), ("CustomerId", v.CustomerId), ("Title", v.Title), ("FirstName", v.FirstName),
   ("LastName", v.LastName), ("EmailAddress", v.EmailAddress), ("PhoneNumber", v.PhoneNumber),
   ("CreationDate", v.CreationDate)]

/-- The document of `main` with an id that is not valid UTF-8 (the one byte
`0xFF`). -/
def invalidIdDocument : WriteDocument := { item with ID := [0xFF] }

/-- The document of `main` with a title that is not valid UTF-8 (the one byte
`0x80`). -/
def invalidTitleDocument : WriteDocument := { item with Title := [0x80] }

/-! ## Theorems -/

/-- C1: for every client, database name and world, `CreateDatabase` returns nil
when the remote call answers without error, nil when the error of the remote
call is (in the sense of `errors.As`) a response error with status 409, and
otherwise exactly the error of the remote call. -/
theorem CreateDatabase_result {σ : Type} (client : Client σ) (databaseName : GoString)
    (w : World σ) :
    (CreateDatabase client databaseName w).1 =
      match (client.CreateDatabase { ID := databaseName } w.remote).1 with
      | .ok _ => none
      | .error err =>
        match errorsAs err with
        | some responseErr => if responseErr.StatusCode = 409 then none else some err
        | none => some err := by
  unfold CreateDatabase
  simp only [World.emit]
  rcases h : client.CreateDatabase { ID := databaseName } w.remote with ⟨r, remote⟩
  cases r with
  | ok resp => simp
  | error err =>
    rcases hAs : errorsAs err with _ | responseErr
    · simp [errorIs409, hAs]
    · by_cases h409 : responseErr.StatusCode = 409 <;> simp [errorIs409, hAs, h409]

/-- C2: `CreateContainer`.  If constructing the database client fails, that
error is returned unchanged, the remote store is untouched and nothing but the
construction is added to the trace (no create-container request).  Otherwise
the result is nil when the remote call answers without error or with an error
that is (in the sense of `errors.As`) a response error with status 409, and
exactly the error of the remote call in every other case. -/
theorem CreateContainer_result {σ : Type} (client : Client σ)
    (databaseName containerName partitionKey : GoString) (w : World σ) :
    match client.NewDatabase databaseName with
    | .error err =>
      (CreateContainer client databaseName containerName partitionKey w).1 = some err ∧
      (CreateContainer client databaseName containerName partitionKey w).2.remote = w.remote ∧
      (CreateContainer client databaseName containerName partitionKey w).2.trace =
        w.trace ++ [.newDatabase databaseName]
    | .ok databaseClient =>
      (CreateContainer client databaseName containerName partitionKey w).1 =
        match (databaseClient.CreateContainer
          { ID := containerName, PartitionKeyDefinition := { Paths := [partitionKey] } }
          { ThroughputProperties := some (NewManualThroughputProperties 400) } w.remote).1 with
        | .ok _ => none
        | .error err =>
          match errorsAs err with
          | some responseErr => if responseErr.StatusCode = 409 then none else some err
          | none => some err := by
  unfold CreateContainer
  simp only [World.emit]
  rcases hdb : client.NewDatabase databaseName with err | databaseClient
  · simp
  · simp only
    rcases h : databaseClient.CreateContainer
      { ID := containerName, PartitionKeyDefinition := { Paths := [partitionKey] } }
      { ThroughputProperties := some (NewManualThroughputProperties 400) } w.remote
      with ⟨r, remote⟩
    cases r with
    | ok resp => simp
    | error err =>
      rcases hAs : errorsAs err with _ | responseErr
      · simp [errorIs409, hAs]
      · by_cases h409 : responseErr.StatusCode = 409 <;> simp [errorIs409, hAs, h409]

/-- C3: `CreateItem`, the container client having been constructed.  If
`json.Marshal` fails, its error is returned unchanged, the remote store is
untouched and the trace gains the construction and the `Marshal` call only (no
insert request).  Otherwise the result is nil when the remote insert answers
without error or with an error that is (in the sense of `errors.As`) a response
error with status 409, and exactly the error of the remote insert in every
other case. -/
theorem CreateItem_result {σ : Type} (client : Client σ)
    (databaseName containerName partitionKey : GoString) (item : Item) (w : World σ)
    (containerClient : ContainerClient σ)
    (hclient : client.NewContainer databaseName containerName = .ok containerClient) :
    match Marshal item with
    | .error err =>
      (CreateItem client databaseName containerName partitionKey item w).1 = some err ∧
      (CreateItem client databaseName containerName partitionKey item w).2.remote = w.remote ∧
      (CreateItem client databaseName containerName partitionKey item w).2.trace =
        w.trace ++ [.newContainer databaseName containerName, .jsonMarshal item]
    | .ok b =>
      (CreateItem client databaseName containerName partitionKey item w).1 =
        match (containerClient.CreateItem (NewPartitionKeyString partitionKey) b
          { ConsistencyLevel := some .Session } w.remote).1 with
        | .ok _ => none
        | .error err =>
          match errorsAs err with
          | some responseErr => if responseErr.StatusCode = 409 then none else some err
          | none => some err := by
  unfold CreateItem
  simp only [World.emit, hclient]
  rcases hm : Marshal item with err | b
  · simp
  · simp only
    rcases h : containerClient.CreateItem (NewPartitionKeyString partitionKey) b
      { ConsistencyLevel := some .Session } w.remote with ⟨r, remote⟩
    cases r with
    | ok resp => simp
    | error err =>
      rcases hAs : errorsAs err with _ | responseErr
      · simp [errorIs409, hAs]
      · by_cases h409 : responseErr.StatusCode = 409 <;> simp [errorIs409, hAs, h409]

/-- C4: `DeleteItem`, the container client having been constructed, returns nil
if and only if the remote delete answers without error, and returns every
error of the remote delete as it is, a 404 and a 409 included. -/
theorem DeleteItem_result {σ : Type} (client : Client σ)
    (databaseName containerName partitionKey itemId : GoString) (w : World σ)
    (containerClient : ContainerClient σ)
    (hclient : client.NewContainer databaseName containerName = .ok containerClient) :
    ((DeleteItem client databaseName containerName partitionKey itemId w).1 = none ↔
      ∃ res, (containerClient.DeleteItem (NewPartitionKeyString partitionKey) itemId
        w.remote).1 = .ok res) ∧
    ∀ err, (containerClient.DeleteItem (NewPartitionKeyString partitionKey) itemId
        w.remote).1 = .error err →
      (DeleteItem client databaseName containerName partitionKey itemId w).1 = some err := by
  unfold DeleteItem
  simp only [World.emit, hclient]
  rcases h : containerClient.DeleteItem (NewPartitionKeyString partitionKey) itemId w.remote
    with ⟨r, remote⟩
  cases r with
  | ok resp => simp
  | error err => simp

/-- C5: `ReadItem`, the container client having been constructed, returns nil
if and only if the remote read answers without error and `json.Unmarshal`
accepts the body; an error of the remote read is returned as it is; an error of
`json.Unmarshal` is returned as it is; and `json.MarshalIndent` of the decoded
struct always yields bytes. -/
theorem ReadItem_result {σ : Type} (client : Client σ)
    (databaseName containerName partitionKey itemId : GoString) (w : World σ)
    (containerClient : ContainerClient σ)
    (hclient : client.NewContainer databaseName containerName = .ok containerClient) :
    ((ReadItem client databaseName containerName partitionKey itemId w).1 = none ↔
      ∃ resp, (containerClient.ReadItem (NewPartitionKeyString partitionKey) itemId
          w.remote).1 = .ok resp ∧ (Unmarshal resp.Value ReadDocument.zero).1 = none) ∧
    (∀ err, (containerClient.ReadItem (NewPartitionKeyString partitionKey) itemId
        w.remote).1 = .error err →
      (ReadItem client databaseName containerName partitionKey itemId w).1 = some err) ∧
    (∀ resp err, (containerClient.ReadItem (NewPartitionKeyString partitionKey) itemId
        w.remote).1 = .ok resp → (Unmarshal resp.Value ReadDocument.zero).1 = some err →
      (ReadItem client databaseName containerName partitionKey itemId w).1 = some err) ∧
    ∀ v : ReadDocument, ∃ b, MarshalIndent v = .ok b := by
  unfold ReadItem
  simp only [World.emit, hclient]
  rcases h : containerClient.ReadItem (NewPartitionKeyString partitionKey) itemId w.remote
    with ⟨r, remote⟩
  refine ⟨?_, ?_, ?_, fun v => ⟨_, rfl⟩⟩
  · cases r with
    | error err => simp
    | ok resp =>
      rcases hu : Unmarshal resp.Value ReadDocument.zero with ⟨e, body⟩
      cases e with
      | none => simp [hu, MarshalIndent]
      | some e => simp [hu]
  · intro err herr
    cases r with
    | error err2 => simp at herr; simp [herr]
    | ok resp => simp at herr
  · intro resp err hresp herr
    cases r with
    | error err2 => simp at hresp
    | ok resp2 =>
      simp at hresp
      subst hresp
      rcases hu : Unmarshal resp2.Value ReadDocument.zero with ⟨e, body⟩
      rw [hu] at herr
      simp at herr
      subst herr
      simp [hu]

/-- C7: over the store of database names, two consecutive `CreateDatabase`
calls with the same name both return nil, whatever the store holds at first,
and the second call leaves the store as the first call left it. -/
theorem CreateDatabase_idempotent (base : Client (List GoString)) (databaseName : GoString)
    (w : World (List GoString)) :
    (CreateDatabase (storeClient base) databaseName w).1 = none ∧
    (CreateDatabase (storeClient base) databaseName
      (CreateDatabase (storeClient base) databaseName w).2).1 = none ∧
    (CreateDatabase (storeClient base) databaseName
      (CreateDatabase (storeClient base) databaseName w).2).2.remote =
      (CreateDatabase (storeClient base) databaseName w).2.remote := by
  have h409 : errorIs409 (some conflict) = true := by decide
  by_cases hmem : databaseName ∈ w.remote
  · simp [CreateDatabase, storeClient, storeCreateDatabase, World.emit, hmem, h409]
  · simp [CreateDatabase, storeClient, storeCreateDatabase, World.emit, hmem, h409]

/-- A witness for C3: a remote insert that answers 409 makes `CreateItem`
return nil. -/
theorem CreateItem_result_witness :
    (fixedClient (.error notFound) (.error notFound)
        (.ok (fixedContainerClient (.error conflict) (.error notFound)
          (.error notFound)))).NewContainer [] [] =
      .ok (fixedContainerClient (.error conflict) (.error notFound) (.error notFound)) ∧
    (CreateItem (fixedClient (.error notFound) (.error notFound)
        (.ok (fixedContainerClient (.error conflict) (.error notFound) (.error notFound))))
      [] [] [] (.encodable [0x7B, 0x7D]) emptyWorld).1 = none :=
  ⟨rfl, by
    have h := CreateItem_result (fixedClient (.error notFound) (.error notFound)
        (.ok (fixedContainerClient (.error conflict) (.error notFound) (.error notFound))))
      [] [] [] (.encodable [0x7B, 0x7D]) emptyWorld
      (fixedContainerClient (.error conflict) (.error notFound) (.error notFound)) rfl
    simpa [Marshal, fixedContainerClient, conflict, errorsAs] using h⟩

/-- A witness for C4: a remote delete that answers 409 makes `DeleteItem` return
that error. -/
theorem DeleteItem_result_witness :
    (fixedClient (.error notFound) (.error notFound)
        (.ok (fixedContainerClient (.error notFound) (.error notFound)
          (.error conflict)))).NewContainer [] [] =
      .ok (fixedContainerClient (.error notFound) (.error notFound) (.error conflict)) ∧
    (DeleteItem (fixedClient (.error notFound) (.error notFound)
        (.ok (fixedContainerClient (.error notFound) (.error notFound) (.error conflict))))
      [] [] [] [] emptyWorld).1 = some conflict :=
  ⟨rfl, (DeleteItem_result (fixedClient (.error notFound) (.error notFound)
        (.ok (fixedContainerClient (.error notFound) (.error notFound) (.error conflict))))
      [] [] [] [] emptyWorld
      (fixedContainerClient (.error notFound) (.error notFound) (.error conflict)) rfl).2
      conflict rfl⟩

/-- A witness for C5: a remote read that answers 404 makes `ReadItem` return
that error. -/
theorem ReadItem_result_witness :
    (fixedClient (.error notFound) (.error notFound)
        (.ok (fixedContainerClient (.error notFound) (.error notFound)
          (.error notFound)))).NewContainer [] [] =
      .ok (fixedContainerClient (.error notFound) (.error notFound) (.error notFound)) ∧
    (ReadItem (fixedClient (.error notFound) (.error notFound)
        (.ok (fixedContainerClient (.error notFound) (.error notFound) (.error notFound))))
      [] [] [] [] emptyWorld).1 = some notFound :=
  ⟨rfl, (ReadItem_result (fixedClient (.error notFound) (.error notFound)
        (.ok (fixedContainerClient (.error notFound) (.error notFound) (.error notFound))))
      [] [] [] [] emptyWorld
      (fixedContainerClient (.error notFound) (.error notFound) (.error notFound)) rfl).2.1
      notFound rfl⟩

/-- The text of an error built by `fmtErrorf` is longer than the text it
quotes, so the new error is not the quoted one. -/
theorem fmtErrorf_ne (textBeforeVerb : String) (err : GoError)
    (hlen : 0 < textBeforeVerb.length) : fmtErrorf textBeforeVerb err ≠ err := by
  intro h
  cases err with
  | errorString t =>
    simp only [fmtErrorf, GoError.Error, GoError.errorString.injEq] at h
    have hl := congrArg String.length h
    simp only [String.length_append] at hl
    omega
  | _ => simp [fmtErrorf] at h

/-- C10: when the construction of the container client fails with `err`, each
of `CreateItem`, `ReadItem` and `DeleteItem` returns a new error whose text is
a fixed text followed by the text of `err`, leaves the remote store untouched
and adds to the trace the construction only (no call into `encoding/json`, no
request).  The new error has no chain behind it: `err` is not in it,
`errors.As` finds no response error in it, and it is not a 409 for
`errorIs409`, whatever `err` is. -/
theorem containerClient_failure {σ : Type} (client : Client σ)
    (databaseName containerName partitionKey itemId : GoString) (item : Item) (w : World σ)
    (err : GoError) (hclient : client.NewContainer databaseName containerName = .error err) :
    CreateItem client databaseName containerName partitionKey item w =
      (some (.errorString ("failed to create a container client: " ++ err.Error)),
        { remote := w.remote, trace := w.trace ++ [.newContainer databaseName containerName] }) ∧
    ReadItem client databaseName containerName partitionKey itemId w =
      (some (.errorString ("failed to create a container client: " ++ err.Error)),
        { remote := w.remote, trace := w.trace ++ [.newContainer databaseName containerName] }) ∧
    DeleteItem client databaseName containerName partitionKey itemId w =
      (some (.errorString ("failed to create a container client:: " ++ err.Error)),
        { remote := w.remote, trace := w.trace ++ [.newContainer databaseName containerName] }) ∧
    (Event.newContainer databaseName containerName).isRequest = false ∧
    (Event.newContainer databaseName containerName).isJson = false ∧
    err ∉ (GoError.errorString ("failed to create a container client: " ++ err.Error)).chain ∧
    err ∉ (GoError.errorString ("failed to create a container client:: " ++ err.Error)).chain ∧
    errorIs409 (CreateItem client databaseName containerName partitionKey item w).1 = false := by
  have hc : CreateItem client databaseName containerName partitionKey item w =
      (some (.errorString ("failed to create a container client: " ++ err.Error)),
        { remote := w.remote, trace := w.trace ++ [.newContainer databaseName containerName] }) := by
    simp [CreateItem, World.emit, hclient, fmtErrorf]
  refine ⟨hc, ?_, ?_, rfl, rfl, ?_, ?_, ?_⟩
  · simp [ReadItem, World.emit, hclient, fmtErrorf]
  · simp [DeleteItem, World.emit, hclient, fmtErrorf]
  · have h := fmtErrorf_ne "failed to create a container client: " err (by decide)
    simp only [GoError.chain, List.mem_singleton]
    exact fun heq => h heq.symm
  · have h := fmtErrorf_ne "failed to create a container client:: " err (by decide)
    simp only [GoError.chain, List.mem_singleton]
    exact fun heq => h heq.symm
  · rw [hc]
    simp [errorIs409, errorsAs]

/-- A witness for C10: a construction that fails with a 409 response error
still makes `CreateItem` return an error. -/
theorem containerClient_failure_witness :
    (fixedClient (.error notFound) (.error notFound) (.error conflict)).NewContainer [] [] =
      .error conflict ∧
    CreateItem (fixedClient (.error notFound) (.error notFound) (.error conflict))
        [] [] [] (.document item) emptyWorld =
      (some (.errorString "failed to create a container client: 409 Conflict"),
        { remote := (), trace := [.newContainer [] []] }) :=
  ⟨rfl, (containerClient_failure
    (fixedClient (.error notFound) (.error notFound) (.error conflict))
    [] [] [] [] (.document item) emptyWorld conflict rfl).1⟩

/-! ### The steps of `main` -/

/-- `CreateDatabase` extends the trace and marks no call site. -/
theorem CreateDatabase_trace {σ : Type} (client : Client σ) (databaseName : GoString)
    (w : World σ) :
    ∃ extra, (CreateDatabase client databaseName w).2.trace = w.trace ++ extra ∧
      extra.filterMap Event.asCall = [] := by
  unfold CreateDatabase
  simp only [World.emit]
  repeat' split
  all_goals simp only [List.append_assoc]
  all_goals exact ⟨_, rfl, by simp [Event.asCall]⟩

/-- `CreateContainer` extends the trace and marks no call site. -/
theorem CreateContainer_trace {σ : Type} (client : Client σ)
    (databaseName containerName partitionKey : GoString) (w : World σ) :
    ∃ extra, (CreateContainer client databaseName containerName partitionKey w).2.trace =
        w.trace ++ extra ∧ extra.filterMap Event.asCall = [] := by
  unfold CreateContainer
  simp only [World.emit]
  repeat' split
  all_goals simp only [List.append_assoc]
  all_goals exact ⟨_, rfl, by simp [Event.asCall]⟩

/-- `CreateItem` extends the trace and marks no call site. -/
theorem CreateItem_trace {σ : Type} (client : Client σ)
    (databaseName containerName partitionKey : GoString) (item : Item) (w : World σ) :
    ∃ extra, (CreateItem client databaseName containerName partitionKey item w).2.trace =
        w.trace ++ extra ∧ extra.filterMap Event.asCall = [] := by
  unfold CreateItem
  simp only [World.emit]
  repeat' split
  all_goals simp only [List.append_assoc]
  all_goals exact ⟨_, rfl, by simp [Event.asCall]⟩

/-- `ReadItem` extends the trace and marks no call site. -/
theorem ReadItem_trace {σ : Type} (client : Client σ)
    (databaseName containerName partitionKey itemId : GoString) (w : World σ) :
    ∃ extra, (ReadItem client databaseName containerName partitionKey itemId w).2.trace =
        w.trace ++ extra ∧ extra.filterMap Event.asCall = [] := by
  unfold ReadItem
  simp only [World.emit]
  repeat' split
  all_goals simp only [List.append_assoc]
  all_goals exact ⟨_, rfl, by simp [Event.asCall]⟩

/-- `DeleteItem` extends the trace and marks no call site. -/
theorem DeleteItem_trace {σ : Type} (client : Client σ)
    (databaseName containerName partitionKey itemId : GoString) (w : World σ) :
    ∃ extra, (DeleteItem client databaseName containerName partitionKey itemId w).2.trace =
        w.trace ++ extra ∧ extra.filterMap Event.asCall = [] := by
  unfold DeleteItem
  simp only [World.emit]
  repeat' split
  all_goals simp only [List.append_assoc]
  all_goals exact ⟨_, rfl, by simp [Event.asCall]⟩

/-- One step of `main`: the call site is marked, the function runs, a
failure is logged.  The trace grows by the mark and by events that are not
marks, and a failure is in it. -/
theorem step_trace {σ : Type} (format : String) (c : Call) (w : World σ)
    (f : World σ → Option GoError × World σ)
    (hf : ∀ w, ∃ extra, (f w).2.trace = w.trace ++ extra ∧ extra.filterMap Event.asCall = []) :
    ∃ extra, (logIfFailed format (f (w.emit (.call c)))).trace = w.trace ++ extra ∧
      extra.filterMap Event.asCall = [c] ∧
      ∀ err, (f (w.emit (.call c))).1 = some err → Event.logPrintf format [.err err] ∈ extra := by
  obtain ⟨extra, htrace, hcalls⟩ := hf (w.emit (.call c))
  unfold logIfFailed
  rcases hr : (f (w.emit (.call c))).1 with _ | err
  · refine ⟨Event.call c :: extra, ?_, ?_, ?_⟩
    · rw [htrace]
      simp [World.emit]
    · simp [Event.asCall, hcalls]
    · intro err herr
      cases herr
  · refine ⟨Event.call c :: (extra ++ [Event.logPrintf format [.err err]]), ?_, ?_, ?_⟩
    · show ((f (w.emit (.call c))).2.emit (Event.logPrintf format [.err err])).trace = _
      show (f (w.emit (.call c))).2.trace ++ [Event.logPrintf format [.err err]] = _
      rw [htrace]
      simp [World.emit]
    · simp [Event.asCall, hcalls, List.filterMap_append]
    · intro err2 herr
      cases herr
      simp

/-- C6: once the credential and the client have been built, `main` ends with
status 0, and the world at exit is the world that the five package functions
leave when each is run once, in the order `CreateDatabase`, `CreateContainer`,
`CreateItem`, `ReadItem`, `DeleteItem`, each in the world the step before it
left (with its failure logged): nothing else acts on the remote store or on
the trace, and no effect of a step is dropped.  Whatever each step answers,
the call sites marked in the trace are exactly these five, once each and in
this order, after the marks the trace held before.  The partition key of the
last three calls is `"1"` and the document id of the last two is `"1"`.  When
a step returns an error the line `<step> failed: %s` with that error is in
the trace at exit. -/
theorem main_runs_every_step {σ : Type} (cfg : Config) (sdk : Azcosmos σ) (w : World σ)
    (cred : KeyCredential) (client : Client σ)
    (hcred : sdk.NewKeyCredential cfg.CosmosDbKey = .ok cred)
    (hclient : sdk.NewClientWithKey cfg.CosmosDbEndpoint cred = .ok client) :
    let w0 := (w.emit (.newKeyCredential cfg.CosmosDbKey)).emit
      (.newClientWithKey cfg.CosmosDbEndpoint)
    let r1 := CreateDatabase client cfg.DatabaseName
      (w0.emit (.call (.CreateDatabase cfg.DatabaseName)))
    let w1 := logIfFailed "createDatabase failed: %s\n" r1
    let r2 := CreateContainer client cfg.DatabaseName cfg.ContainerName cfg.PartitionKey
      (w1.emit (.call (.CreateContainer cfg.DatabaseName cfg.ContainerName cfg.PartitionKey)))
    let w2 := logIfFailed "createContainer failed: %s\n" r2
    let r3 := CreateItem client cfg.DatabaseName cfg.ContainerName (ascii "1") (.document item)
      (w2.emit (.call (.CreateItem cfg.DatabaseName cfg.ContainerName (ascii "1")
        (.document item))))
    let w3 := logIfFailed "createItem failed: %s\n" r3
    let r4 := ReadItem client cfg.DatabaseName cfg.ContainerName (ascii "1") (ascii "1")
      (w3.emit (.call (.ReadItem cfg.DatabaseName cfg.ContainerName (ascii "1") (ascii "1"))))
    let w4 := logIfFailed "readItem failed: %s\n" r4
    let r5 := DeleteItem client cfg.DatabaseName cfg.ContainerName (ascii "1") (ascii "1")
      (w4.emit (.call (.DeleteItem cfg.DatabaseName cfg.ContainerName (ascii "1") (ascii "1"))))
    (main cfg sdk w).1 = 0 ∧
    (main cfg sdk w).2 = logIfFailed "deleteItem failed: %s\n" r5 ∧
    (main cfg sdk w).2.trace.filterMap Event.asCall =
      w.trace.filterMap Event.asCall ++
        [.CreateDatabase cfg.DatabaseName,
         .CreateContainer cfg.DatabaseName cfg.ContainerName cfg.PartitionKey,
         .CreateItem cfg.DatabaseName cfg.ContainerName (ascii "1") (.document item),
         .ReadItem cfg.DatabaseName cfg.ContainerName (ascii "1") (ascii "1"),
         .DeleteItem cfg.DatabaseName cfg.ContainerName (ascii "1") (ascii "1")] ∧
    (∀ err, r1.1 = some err →
      Event.logPrintf "createDatabase failed: %s\n" [.err err] ∈ (main cfg sdk w).2.trace) ∧
    (∀ err, r2.1 = some err →
      Event.logPrintf "createContainer failed: %s\n" [.err err] ∈ (main cfg sdk w).2.trace) ∧
    (∀ err, r3.1 = some err →
      Event.logPrintf "createItem failed: %s\n" [.err err] ∈ (main cfg sdk w).2.trace) ∧
    (∀ err, r4.1 = some err →
      Event.logPrintf "readItem failed: %s\n" [.err err] ∈ (main cfg sdk w).2.trace) ∧
    (∀ err, r5.1 = some err →
      Event.logPrintf "deleteItem failed: %s\n" [.err err] ∈ (main cfg sdk w).2.trace) := by
  intro w0 r1 w1 r2 w2 r3 w3 r4 w4 r5
  have hmain : main cfg sdk w = (0, logIfFailed "deleteItem failed: %s\n" r5) := by
    simp only [main, hcred, hclient]
    rfl
  obtain ⟨x1, ht1, hc1, hl1⟩ := step_trace "createDatabase failed: %s\n"
    (.CreateDatabase cfg.DatabaseName) w0 (CreateDatabase client cfg.DatabaseName)
    (CreateDatabase_trace client _)
  obtain ⟨x2, ht2, hc2, hl2⟩ := step_trace "createContainer failed: %s\n"
    (.CreateContainer cfg.DatabaseName cfg.ContainerName cfg.PartitionKey) w1
    (CreateContainer client cfg.DatabaseName cfg.ContainerName cfg.PartitionKey)
    (CreateContainer_trace client _ _ _)
  obtain ⟨x3, ht3, hc3, hl3⟩ := step_trace "createItem failed: %s\n"
    (.CreateItem cfg.DatabaseName cfg.ContainerName (ascii "1") (.document item)) w2
    (CreateItem client cfg.DatabaseName cfg.ContainerName (ascii "1") (.document item))
    (CreateItem_trace client _ _ _ _)
  obtain ⟨x4, ht4, hc4, hl4⟩ := step_trace "readItem failed: %s\n"
    (.ReadItem cfg.DatabaseName cfg.ContainerName (ascii "1") (ascii "1")) w3
    (ReadItem client cfg.DatabaseName cfg.ContainerName (ascii "1") (ascii "1"))
    (ReadItem_trace client _ _ _ _)
  obtain ⟨x5, ht5, hc5, hl5⟩ := step_trace "deleteItem failed: %s\n"
    (.DeleteItem cfg.DatabaseName cfg.ContainerName (ascii "1") (ascii "1")) w4
    (DeleteItem client cfg.DatabaseName cfg.ContainerName (ascii "1") (ascii "1"))
    (DeleteItem_trace client _ _ _ _)
  have h0 : w0.trace = w.trace ++
      [.newKeyCredential cfg.CosmosDbKey, .newClientWithKey cfg.CosmosDbEndpoint] := by
    simp [w0, World.emit]
  have htrace : (main cfg sdk w).2.trace = w.trace ++
      [.newKeyCredential cfg.CosmosDbKey, .newClientWithKey cfg.CosmosDbEndpoint] ++
      x1 ++ x2 ++ x3 ++ x4 ++ x5 := by
    rw [hmain]
    show (logIfFailed "deleteItem failed: %s\n" r5).trace = _
    rw [ht5]
    show (logIfFailed "readItem failed: %s\n" r4).trace ++ x5 = _
    rw [ht4]
    show (logIfFailed "createItem failed: %s\n" r3).trace ++ x4 ++ x5 = _
    rw [ht3]
    show (logIfFailed "createContainer failed: %s\n" r2).trace ++ x3 ++ x4 ++ x5 = _
    rw [ht2]
    show (logIfFailed "createDatabase failed: %s\n" r1).trace ++ x2 ++ x3 ++ x4 ++ x5 = _
    rw [ht1, h0]
  refine ⟨by rw [hmain], by rw [hmain], ?_, ?_, ?_, ?_, ?_, ?_⟩
  · rw [htrace]
    simp only [List.filterMap_append, hc1, hc2, hc3, hc4, hc5]
    simp [Event.asCall]
  · intro err herr
    rw [htrace]
    have := hl1 err herr
    simp [this]
  · intro err herr
    rw [htrace]
    have := hl2 err herr
    simp [this]
  · intro err herr
    rw [htrace]
    have := hl3 err herr
    simp [this]
  · intro err herr
    rw [htrace]
    have := hl4 err herr
    simp [this]
  · intro err herr
    rw [htrace]
    have := hl5 err herr
    simp [this]

/-- A witness for C6: with a client all of whose requests fail, `main` still
marks the five call sites in order, and the requests in the trace at exit are
the five requests of the five steps, one each and in order. -/
theorem main_runs_every_step_witness :
    (fixedAzcosmos failingClient).NewKeyCredential sampleConfig.CosmosDbKey =
      .ok { key := sampleConfig.CosmosDbKey } ∧
    (fixedAzcosmos failingClient).NewClientWithKey sampleConfig.CosmosDbEndpoint
      { key := sampleConfig.CosmosDbKey } = .ok failingClient ∧
    (main sampleConfig (fixedAzcosmos failingClient) emptyWorld).2.trace.filterMap
        Event.asCall =
      [.CreateDatabase sampleConfig.DatabaseName,
       .CreateContainer sampleConfig.DatabaseName sampleConfig.ContainerName
         sampleConfig.PartitionKey,
       .CreateItem sampleConfig.DatabaseName sampleConfig.ContainerName (ascii "1")
         (.document item),
       .ReadItem sampleConfig.DatabaseName sampleConfig.ContainerName (ascii "1") (ascii "1"),
       .DeleteItem sampleConfig.DatabaseName sampleConfig.ContainerName (ascii "1")
         (ascii "1")] ∧
    (main sampleConfig (fixedAzcosmos failingClient) emptyWorld).2.trace.filterMap
        Event.asRequest =
      [.createDatabaseRequest { ID := sampleConfig.DatabaseName },
       .createContainerRequest
         { ID := sampleConfig.ContainerName,
           PartitionKeyDefinition := { Paths := [sampleConfig.PartitionKey] } }
         { ThroughputProperties := some (NewManualThroughputProperties 400) },
       .createItemRequest (NewPartitionKeyString (ascii "1")) (marshalWriteDocument item)
         { ConsistencyLevel := some .Session },
       .readItemRequest (NewPartitionKeyString (ascii "1")) (ascii "1"),
       .deleteItemRequest (NewPartitionKeyString (ascii "1")) (ascii "1")] :=
  ⟨rfl, rfl,
   (main_runs_every_step sampleConfig (fixedAzcosmos failingClient) emptyWorld
    { key := sampleConfig.CosmosDbKey } failingClient rfl rfl).2.2.1,
   congrArg (fun world => world.trace.filterMap Event.asRequest)
    (main_runs_every_step sampleConfig (fixedAzcosmos failingClient) emptyWorld
      { key := sampleConfig.CosmosDbKey } failingClient rfl rfl).2.1⟩

/-! ### UTF-8 and JSON strings -/

/-- The classes of first bytes outside ASCII in the table `first`. -/
theorem first_cases (v : Nat) (hlo : 0x80 ≤ v) (hhi : v < 256) :
    first v = 0xF1 ∨
    (0xC2 ≤ v ∧ v ≤ 0xDF ∧ first v = 0x02) ∨
    (v = 0xE0 ∧ first v = 0x13) ∨
    (((0xE1 ≤ v ∧ v ≤ 0xEC) ∨ v = 0xEE ∨ v = 0xEF) ∧ first v = 0x03) ∨
    (v = 0xED ∧ first v = 0x23) ∨
    (v = 0xF0 ∧ first v = 0x34) ∨
    (0xF1 ≤ v ∧ v ≤ 0xF3 ∧ first v = 0x04) ∨
    (v = 0xF4 ∧ first v = 0x44) := by
  interval_cases v <;> simp [first]

/-- `byte(x)` of a byte's own value. -/
theorem toByte_val (b : Byte) (n : Nat) (h : n = b.val) : toByte n = b := by
  subst h
  apply Fin.ext
  simp [toByte, Fin.ofNat]

/-- A valid encoding of more than one byte: `DecodeRune` reads the bytes
`b :: tl`, whatever follows them, and `EncodeRune` writes them back. -/
theorem DecodeRune_valid (b : Byte) (src : GoString) (hb : 0x80 ≤ b.val)
    (hvalid : ¬((DecodeRune (b :: src)).1 = RuneError ∧ (DecodeRune (b :: src)).2 = 1)) :
    ∃ tl, (b :: src).take (DecodeRune (b :: src)).2 = b :: tl ∧
      (DecodeRune (b :: src)).2 = tl.length + 1 ∧
      EncodeRune (DecodeRune (b :: src)).1 = b :: tl ∧
      (∀ x ∈ tl, 0x80 ≤ x.val) ∧
      ∀ ys, DecodeRune (b :: tl ++ ys) = DecodeRune (b :: src) := by
  have hlt := b.isLt
  rcases first_cases b.val hb hlt with hf | ⟨h1, h2, hf⟩ | ⟨h1, hf⟩ | ⟨h1, hf⟩ | ⟨h1, hf⟩ |
    ⟨h1, hf⟩ | ⟨h1, h2, hf⟩ | ⟨h1, hf⟩
  · exfalso
    apply hvalid
    simp [DecodeRune, byteAt, hf]
  · rcases src with _ | ⟨b1, t⟩
    · exfalso
      apply hvalid
      simp [DecodeRune, byteAt, hf, acceptRanges]
    · have hb1 := b1.isLt
      by_cases hr : b1.val < 0x80 ∨ 0xBF < b1.val
      · exfalso
        apply hvalid
        simp [DecodeRune, byteAt, hf, acceptRanges, hr]
      · have hd : ∀ t', DecodeRune (b :: b1 :: t') = ((b.val % 32) * 64 + b1.val % 64, 2) := by
          intro t'
          simp [DecodeRune, byteAt, hf, acceptRanges, hr]
        refine ⟨[b1], ?_, ?_, ?_, ?_, ?_⟩
        · simp [hd]
        · simp [hd]
        · rw [hd]
          simp only [EncodeRune]
          rw [if_neg (by omega), if_pos (by omega)]
          rw [toByte_val b _ (by omega), toByte_val b1 _ (by omega)]
        · simp; omega
        · intro ys
          simp [hd]
  · rcases src with _ | ⟨b1, _ | ⟨b2, t⟩⟩
    · exfalso
      apply hvalid
      simp [DecodeRune, byteAt, hf, acceptRanges]
    · exfalso
      apply hvalid
      simp [DecodeRune, byteAt, hf, acceptRanges]
    · have hb1 := b1.isLt
      have hb2 := b2.isLt
      by_cases hr1 : b1.val < 0xA0 ∨ 0xBF < b1.val
      · exfalso
        apply hvalid
        simp [DecodeRune, byteAt, hf, acceptRanges, hr1]
      · by_cases hr2 : b2.val < 0x80 ∨ 0xBF < b2.val
        · exfalso
          apply hvalid
          simp [DecodeRune, byteAt, hf, acceptRanges, hr1, hr2]
        · have hd : ∀ t', DecodeRune (b :: b1 :: b2 :: t') =
              ((b.val % 16) * 4096 + (b1.val % 64) * 64 + b2.val % 64, 3) := by
            intro t'
            simp [DecodeRune, byteAt, hf, acceptRanges, hr1, hr2]
          refine ⟨[b1, b2], ?_, ?_, ?_, ?_, ?_⟩
          · simp [hd]
          · simp [hd]
          · rw [hd]
            simp only [EncodeRune]
            rw [if_neg (by omega), if_neg (by omega), if_neg (by omega), if_pos (by omega)]
            rw [toByte_val b _ (by omega), toByte_val b1 _ (by omega),
              toByte_val b2 _ (by omega)]
          · simp; omega
          · intro ys
            simp [hd]
  · rcases src with _ | ⟨b1, _ | ⟨b2, t⟩⟩
    · exfalso
      apply hvalid
      simp [DecodeRune, byteAt, hf, acceptRanges]
    · exfalso
      apply hvalid
      simp [DecodeRune, byteAt, hf, acceptRanges]
    · have hb1 := b1.isLt
      have hb2 := b2.isLt
      by_cases hr1 : b1.val < 0x80 ∨ 0xBF < b1.val
      · exfalso
        apply hvalid
        simp [DecodeRune, byteAt, hf, acceptRanges, hr1]
      · by_cases hr2 : b2.val < 0x80 ∨ 0xBF < b2.val
        · exfalso
          apply hvalid
          simp [DecodeRune, byteAt, hf, acceptRanges, hr1, hr2]
        · have hd : ∀ t', DecodeRune (b :: b1 :: b2 :: t') =
              ((b.val % 16) * 4096 + (b1.val % 64) * 64 + b2.val % 64, 3) := by
            intro t'
            simp [DecodeRune, byteAt, hf, acceptRanges, hr1, hr2]
          refine ⟨[b1, b2], ?_, ?_, ?_, ?_, ?_⟩
          · simp [hd]
          · simp [hd]
          · rw [hd]
            simp only [EncodeRune]
            rw [if_neg (by omega), if_neg (by omega), if_neg (by omega), if_pos (by omega)]
            rw [toByte_val b _ (by omega), toByte_val b1 _ (by omega),
              toByte_val b2 _ (by omega)]
          · simp; omega
          · intro ys
            simp [hd]
  · rcases src with _ | ⟨b1, _ | ⟨b2, t⟩⟩
    · exfalso
      apply hvalid
      simp [DecodeRune, byteAt, hf, acceptRanges]
    · exfalso
      apply hvalid
      simp [DecodeRune, byteAt, hf, acceptRanges]
    · have hb1 := b1.isLt
      have hb2 := b2.isLt
      by_cases hr1 : b1.val < 0x80 ∨ 0x9F < b1.val
      · exfalso
        apply hvalid
        simp [DecodeRune, byteAt, hf, acceptRanges, hr1]
      · by_cases hr2 : b2.val < 0x80 ∨ 0xBF < b2.val
        · exfalso
          apply hvalid
          simp [DecodeRune, byteAt, hf, acceptRanges, hr1, hr2]
        · have hd : ∀ t', DecodeRune (b :: b1 :: b2 :: t') =
              ((b.val % 16) * 4096 + (b1.val % 64) * 64 + b2.val % 64, 3) := by
            intro t'
            simp [DecodeRune, byteAt, hf, acceptRanges, hr1, hr2]
          refine ⟨[b1, b2], ?_, ?_, ?_, ?_, ?_⟩
          · simp [hd]
          · simp [hd]
          · rw [hd]
            simp only [EncodeRune]
            rw [if_neg (by omega), if_neg (by omega), if_neg (by omega), if_pos (by omega)]
            rw [toByte_val b _ (by omega), toByte_val b1 _ (by omega),
              toByte_val b2 _ (by omega)]
          · simp; omega
          · intro ys
            simp [hd]
  · rcases src with _ | ⟨b1, _ | ⟨b2, _ | ⟨b3, t⟩⟩⟩
    · exfalso
      apply hvalid
      simp [DecodeRune, byteAt, hf, acceptRanges]
    · exfalso
      apply hvalid
      simp [DecodeRune, byteAt, hf, acceptRanges]
    · exfalso
      apply hvalid
      simp [DecodeRune, byteAt, hf, acceptRanges]
    · have hb1 := b1.isLt
      have hb2 := b2.isLt
      have hb3 := b3.isLt
      by_cases hr1 : b1.val < 0x90 ∨ 0xBF < b1.val
      · exfalso
        apply hvalid
        simp [DecodeRune, byteAt, hf, acceptRanges, hr1]
      · by_cases hr2 : b2.val < 0x80 ∨ 0xBF < b2.val
        · exfalso
          apply hvalid
          simp [DecodeRune, byteAt, hf, acceptRanges, hr1, hr2]
        · by_cases hr3 : b3.val < 0x80 ∨ 0xBF < b3.val
          · exfalso
            apply hvalid
            simp [DecodeRune, byteAt, hf, acceptRanges, hr1, hr2, hr3]
          · have hd : ∀ t', DecodeRune (b :: b1 :: b2 :: b3 :: t') =
                ((b.val % 8) * 262144 + (b1.val % 64) * 4096 + (b2.val % 64) * 64 +
                  b3.val % 64, 4) := by
              intro t'
              simp [DecodeRune, byteAt, hf, acceptRanges, hr1, hr2, hr3]
            refine ⟨[b1, b2, b3], ?_, ?_, ?_, ?_, ?_⟩
            · simp [hd]
            · simp [hd]
            · rw [hd]
              simp only [EncodeRune]
              rw [if_neg (by omega), if_neg (by omega), if_neg (by omega), if_neg (by omega)]
              rw [toByte_val b _ (by omega), toByte_val b1 _ (by omega),
                toByte_val b2 _ (by omega), toByte_val b3 _ (by omega)]
            · simp; omega
            · intro ys
              simp [hd]
  · rcases src with _ | ⟨b1, _ | ⟨b2, _ | ⟨b3, t⟩⟩⟩
    · exfalso
      apply hvalid
      simp [DecodeRune, byteAt, hf, acceptRanges]
    · exfalso
      apply hvalid
      simp [DecodeRune, byteAt, hf, acceptRanges]
    · exfalso
      apply hvalid
      simp [DecodeRune, byteAt, hf, acceptRanges]
    · have hb1 := b1.isLt
      have hb2 := b2.isLt
      have hb3 := b3.isLt
      by_cases hr1 : b1.val < 0x80 ∨ 0xBF < b1.val
      · exfalso
        apply hvalid
        simp [DecodeRune, byteAt, hf, acceptRanges, hr1]
      · by_cases hr2 : b2.val < 0x80 ∨ 0xBF < b2.val
        · exfalso
          apply hvalid
          simp [DecodeRune, byteAt, hf, acceptRanges, hr1, hr2]
        · by_cases hr3 : b3.val < 0x80 ∨ 0xBF < b3.val
          · exfalso
            apply hvalid
            simp [DecodeRune, byteAt, hf, acceptRanges, hr1, hr2, hr3]
          · have hd : ∀ t', DecodeRune (b :: b1 :: b2 :: b3 :: t') =
                ((b.val % 8) * 262144 + (b1.val % 64) * 4096 + (b2.val % 64) * 64 +
                  b3.val % 64, 4) := by
              intro t'
              simp [DecodeRune, byteAt, hf, acceptRanges, hr1, hr2, hr3]
            refine ⟨[b1, b2, b3], ?_, ?_, ?_, ?_, ?_⟩
            · simp [hd]
            · simp [hd]
            · rw [hd]
              simp only [EncodeRune]
              rw [if_neg (by omega), if_neg (by omega), if_neg (by omega), if_neg (by omega)]
              rw [toByte_val b _ (by omega), toByte_val b1 _ (by omega),
                toByte_val b2 _ (by omega), toByte_val b3 _ (by omega)]
            · simp; omega
            · intro ys
              simp [hd]
  · rcases src with _ | ⟨b1, _ | ⟨b2, _ | ⟨b3, t⟩⟩⟩
    · exfalso
      apply hvalid
      simp [DecodeRune, byteAt, hf, acceptRanges]
    · exfalso
      apply hvalid
      simp [DecodeRune, byteAt, hf, acceptRanges]
    · exfalso
      apply hvalid
      simp [DecodeRune, byteAt, hf, acceptRanges]
    · have hb1 := b1.isLt
      have hb2 := b2.isLt
      have hb3 := b3.isLt
      by_cases hr1 : b1.val < 0x80 ∨ 0x8F < b1.val
      · exfalso
        apply hvalid
        simp [DecodeRune, byteAt, hf, acceptRanges, hr1]
      · by_cases hr2 : b2.val < 0x80 ∨ 0xBF < b2.val
        · exfalso
          apply hvalid
          simp [DecodeRune, byteAt, hf, acceptRanges, hr1, hr2]
        · by_cases hr3 : b3.val < 0x80 ∨ 0xBF < b3.val
          · exfalso
            apply hvalid
            simp [DecodeRune, byteAt, hf, acceptRanges, hr1, hr2, hr3]
          · have hd : ∀ t', DecodeRune (b :: b1 :: b2 :: b3 :: t') =
                ((b.val % 8) * 262144 + (b1.val % 64) * 4096 + (b2.val % 64) * 64 +
                  b3.val % 64, 4) := by
              intro t'
              simp [DecodeRune, byteAt, hf, acceptRanges, hr1, hr2, hr3]
            refine ⟨[b1, b2, b3], ?_, ?_, ?_, ?_, ?_⟩
            · simp [hd]
            · simp [hd]
            · rw [hd]
              simp only [EncodeRune]
              rw [if_neg (by omega), if_neg (by omega), if_neg (by omega), if_neg (by omega)]
              rw [toByte_val b _ (by omega), toByte_val b1 _ (by omega),
                toByte_val b2 _ (by omega), toByte_val b3 _ (by omega)]
            · simp; omega
            · intro ys
              simp [hd]

/-- A rune is at most four bytes wide. -/
theorem DecodeRune_size_le (p : GoString) : (DecodeRune p).2 ≤ 4 := by
  unfold DecodeRune
  simp only []
  split_ifs <;> simp

/-- The length announced by a first byte is at most four. -/
theorem first_mod8_le (v : Nat) : first v % 8 ≤ 4 := by
  unfold first
  split_ifs <;> simp

/-- `DecodeRune` reads at most four bytes: `appendString` may hand it the next
four bytes only. -/
theorem DecodeRune_take4 (p : GoString) : DecodeRune (p.take 4) = DecodeRune p := by
  rcases p with _ | ⟨b, _ | ⟨b1, _ | ⟨b2, _ | ⟨b3, t⟩⟩⟩⟩
  · rfl
  · rfl
  · rfl
  · rfl
  · have h := first_mod8_le b.val
    simp only [List.take_succ_cons, List.take_zero, DecodeRune, byteAt, List.length_cons,
      List.length_nil, List.getD_cons_zero, List.getD_cons_succ]
    have h1 : ¬ (t.length + 1 + 1 + 1 + 1 < first b.val % 8) := by omega
    have h2 : ¬ (0 + 1 + 1 + 1 + 1 < first b.val % 8) := by omega
    simp only [h1, h2, if_false]
    simp

/-- An ASCII byte is its own rune. -/
theorem DecodeRune_ascii (b : Byte) (s : GoString) (hb : b.val < 0x80) :
    DecodeRune (b :: s) = (b.val, 1) := by
  have hf : first b.val = 0xF0 := by simp [first, hb]
  simp [DecodeRune, byteAt, hf]

/-- A valid UTF-8 string is left as it is. -/
theorem coerceLoop_valid (n : Nat) (s : GoString) (h : validLoop n s = true) :
    coerceLoop n s = s := by
  induction n generalizing s with
  | zero =>
    cases s with
    | nil => rfl
    | cons b t => simp [validLoop] at h
  | succ n ih =>
    cases s with
    | nil => rfl
    | cons b t =>
      simp only [validLoop] at h
      simp only [coerceLoop]
      split at h
      · simp at h
      · rename_i hinv
        rw [if_neg hinv, ih _ h]
        exact List.take_append_drop _ _

/-- A digit written by the encoder is read back by the decoder. -/
theorem hexValue_hex (n : Nat) (h : n < 16) : hexValue (hex n) = some n := by
  interval_cases n <;> decide

/-- The closing quote ends the literal. -/
theorem unquoteLoop_quote (m : Nat) (rest : GoString) :
    unquoteLoop (m + 1) (0x22 :: rest) = some ([], rest) := by
  simp [unquoteLoop, Fin.coe_ofNat_eq_mod]

/-- The decoder copies an ASCII byte that needs no escape. -/
theorem unquoteLoop_plain (m : Nat) (c : Byte) (rest : GoString)
    (h1 : c.val ≠ 0x22) (h2 : c.val ≠ 0x5C) (h3 : 0x20 ≤ c.val) (h4 : c.val < 0x80) :
    unquoteLoop (m + 1) (c :: rest) = prepend [c] (unquoteLoop m rest) := by
  have h5 : ¬ c.val < 0x20 := by omega
  simp [unquoteLoop, h1, h2, h5, h4]

/-- The decoder reads `\uXXXX` as the rune with these four digits. -/
theorem unquoteLoop_u (m : Nat) (h1 h2 h3 h4 : Byte) (d1 d2 d3 d4 : Nat) (rest : GoString)
    (e1 : hexValue h1 = some d1) (e2 : hexValue h2 = some d2) (e3 : hexValue h3 = some d3)
    (e4 : hexValue h4 = some d4)
    (hs : IsSurrogate (d1 * 4096 + d2 * 256 + d3 * 16 + d4) = false) :
    unquoteLoop (m + 1) (0x5C :: 0x75 :: h1 :: h2 :: h3 :: h4 :: rest) =
      prepend (EncodeRune (d1 * 4096 + d2 * 256 + d3 * 16 + d4)) (unquoteLoop m rest) := by
  simp [unquoteLoop, getu4, e1, e2, e3, e4, hs, Fin.coe_ofNat_eq_mod]

/-- The decoder reads back the escape that the encoder writes for an ASCII
byte. -/
theorem unquoteLoop_escape (m : Nat) (b : Byte) (rest : GoString) (hb : b.val < 0x80) :
    unquoteLoop (m + 1) (escapeByte b ++ rest) = prepend [b] (unquoteLoop m rest) := by
  unfold escapeByte
  split_ifs with c1 c2 c3 c4 c5 c6
  · rcases c1 with c1 | c1
    · have : b = 0x5C := Fin.ext c1
      subst this
      simp [unquoteLoop, unescape, Fin.coe_ofNat_eq_mod]
    · have : b = 0x22 := Fin.ext c1
      subst this
      simp [unquoteLoop, unescape, Fin.coe_ofNat_eq_mod]
  · have : b = 0x08 := Fin.ext c2
    subst this
    simp [unquoteLoop, unescape, Fin.coe_ofNat_eq_mod]
  · have : b = 0x0C := Fin.ext c3
    subst this
    simp [unquoteLoop, unescape, Fin.coe_ofNat_eq_mod]
  · have : b = 0x0A := Fin.ext c4
    subst this
    simp [unquoteLoop, unescape, Fin.coe_ofNat_eq_mod]
  · have : b = 0x0D := Fin.ext c5
    subst this
    simp [unquoteLoop, unescape, Fin.coe_ofNat_eq_mod]
  · have : b = 0x09 := Fin.ext c6
    subst this
    simp [unquoteLoop, unescape, Fin.coe_ofNat_eq_mod]
  · have hz : hexValue (0x30 : Byte) = some 0 := by decide
    have hhi := hexValue_hex (b.val / 16) (by omega)
    have hlo := hexValue_hex (b.val % 16) (by omega)
    have hu := unquoteLoop_u m 0x30 0x30 (hex (b.val / 16)) (hex (b.val % 16)) 0 0
      (b.val / 16) (b.val % 16) rest hz hz hhi hlo (by simp [IsSurrogate]; omega)
    have hr : 0 * 4096 + 0 * 256 + b.val / 16 * 16 + b.val % 16 = b.val := by omega
    rw [hr] at hu
    have he : EncodeRune b.val = [b] := by
      simp only [EncodeRune]
      rw [if_pos (by omega), toByte_val b _ rfl]
    rw [he] at hu
    simpa using hu

/-- The decoder reads a valid encoding of several bytes as its rune. -/
theorem unquoteLoop_multi (m : Nat) (b : Byte) (tl rest : GoString) (c size : Nat)
    (hb : 0x80 ≤ b.val) (hd : DecodeRune (b :: (tl ++ rest)) = (c, size))
    (hsize : size = tl.length + 1) :
    unquoteLoop (m + 1) (b :: tl ++ rest) = prepend (EncodeRune c) (unquoteLoop m rest) := by
  have h1 : b.val ≠ 0x22 := by omega
  have h2 : b.val ≠ 0x5C := by omega
  have h3 : ¬ b.val < 0x20 := by omega
  have h4 : ¬ b.val < 0x80 := by omega
  show unquoteLoop (m + 1) (b :: (tl ++ rest)) = _
  generalize hl : tl ++ rest = l at hd
  simp only [unquoteLoop, h1, h2, h3, h4, if_false]
  rw [hd]
  subst hl
  subst hsize
  simp

/-- Decoding what `appendStringLoop` wrote gives the coerced string and stops
after the closing quote. -/
theorem unquote_appendStringLoop (n : Nat) : ∀ (s rest : GoString) (m : Nat),
    s.length ≤ n → n < m →
    unquoteLoop m (appendStringLoop n s ++ 0x22 :: rest) = some (coerceLoop n s, rest) := by
  induction n with
  | zero =>
    intro s rest m hs hm
    obtain ⟨m, rfl⟩ : ∃ k, m = k + 1 := ⟨m - 1, by omega⟩
    cases s with
    | nil => simpa [appendStringLoop, coerceLoop] using unquoteLoop_quote m rest
    | cons b t => simp at hs
  | succ n ih =>
    intro s rest m hs hm
    obtain ⟨m, rfl⟩ : ∃ k, m = k + 1 := ⟨m - 1, by omega⟩
    have hm' : n < m := by omega
    cases s with
    | nil => simpa [appendStringLoop, coerceLoop] using unquoteLoop_quote m rest
    | cons b t =>
      have ht : t.length ≤ n := by simpa using hs
      by_cases hb : b.val < 0x80
      · -- ASCII
        have hdec := DecodeRune_ascii b t hb
        have hc : coerceLoop (n + 1) (b :: t) = b :: coerceLoop n t := by
          simp only [coerceLoop, hdec]
          rw [if_neg (by simp [RuneError]; omega)]
          simp
        rw [hc]
        by_cases hsafe : htmlSafeSet b.val = true
        · have he : appendStringLoop (n + 1) (b :: t) = b :: appendStringLoop n t := by
            simp [appendStringLoop, hb, hsafe]
          rw [he]
          simp only [htmlSafeSet, decide_eq_true_eq] at hsafe
          rw [List.cons_append, unquoteLoop_plain m b _ hsafe.2.2.1 hsafe.2.2.2.2.2.2 hsafe.1 hb,
            ih t rest m ht hm']
          rfl
        · have he : appendStringLoop (n + 1) (b :: t) = escapeByte b ++ appendStringLoop n t := by
            simp [appendStringLoop, hb, hsafe]
          rw [he, List.append_assoc, unquoteLoop_escape m b _ hb, ih t rest m ht hm']
          rfl
      · -- outside ASCII
        have hb' : 0x80 ≤ b.val := by omega
        have htake := DecodeRune_take4 (b :: t)
        rcases hdec : DecodeRune (b :: t) with ⟨c, size⟩
        by_cases hinv : c = RuneError ∧ size = 1
        · have he : appendStringLoop (n + 1) (b :: t) =
              [0x5C, 0x75, 0x66, 0x66, 0x66, 0x64] ++ appendStringLoop n t := by
            simp only [appendStringLoop, hb, if_false, htake, hdec, hinv, and_self, if_true]
          have hc : coerceLoop (n + 1) (b :: t) = [0xEF, 0xBF, 0xBD] ++ coerceLoop n t := by
            simp only [coerceLoop, hdec, hinv, and_self, if_true]
          have hu := unquoteLoop_u m 0x66 0x66 0x66 0x64 15 15 15 13
            (appendStringLoop n t ++ 0x22 :: rest) (by decide) (by decide) (by decide)
            (by decide) (by decide)
          have henc : EncodeRune (15 * 4096 + 15 * 256 + 15 * 16 + 13) = [0xEF, 0xBF, 0xBD] := by
            decide
          rw [henc, ih t rest m ht hm'] at hu
          rw [he, hc, List.append_assoc]
          exact hu
        · have hvalid : ¬((DecodeRune (b :: t)).1 = RuneError ∧ (DecodeRune (b :: t)).2 = 1) := by
            rw [hdec]; exact hinv
          obtain ⟨tl, htk, hsz, henc, _, hstable⟩ := DecodeRune_valid b t hb' hvalid
          rw [hdec] at htk hsz henc
          simp only at htk hsz henc
          have hdrop : ((b :: t).drop size).length ≤ n := by
            simp only [List.length_drop, List.length_cons]
            omega
          have hc : coerceLoop (n + 1) (b :: t) =
              (b :: tl) ++ coerceLoop n ((b :: t).drop size) := by
            simp only [coerceLoop, hdec, hinv, if_false, htk]
          rw [hc]
          by_cases hls : c = 0x2028 ∨ c = 0x2029
          · have he : appendStringLoop (n + 1) (b :: t) =
                [0x5C, 0x75, 0x32, 0x30, 0x32, hex (c % 16)] ++
                  appendStringLoop n ((b :: t).drop size) := by
              simp only [appendStringLoop, hb, if_false, htake, hdec, hinv, hls, if_true]
            have hu := unquoteLoop_u m 0x32 0x30 0x32 (hex (c % 16)) 2 0 2 (c % 16)
              (appendStringLoop n ((b :: t).drop size) ++ 0x22 :: rest) (by decide) (by decide)
              (by decide) (hexValue_hex _ (by omega))
              (by rcases hls with h | h <;> subst h <;> decide)
            have hr : 2 * 4096 + 0 * 256 + 2 * 16 + c % 16 = c := by omega
            rw [hr, henc, ih _ rest m hdrop hm'] at hu
            rw [he, List.append_assoc]
            exact hu
          · have he : appendStringLoop (n + 1) (b :: t) =
                (b :: tl) ++ appendStringLoop n ((b :: t).drop size) := by
              simp only [appendStringLoop, hb, if_false, htake, hdec, hinv, hls, htk]
            have hd2 := hstable (appendStringLoop n ((b :: t).drop size) ++ 0x22 :: rest)
            rw [hdec] at hd2
            rw [he, List.append_assoc,
              unquoteLoop_multi m b tl _ c size hb' hd2 hsz, henc, ih _ rest m hdrop hm']
            rfl

/-- The encoder writes at least as many bytes as it reads. -/
theorem length_le_appendStringLoop (n : Nat) : ∀ s : GoString, s.length ≤ n →
    s.length ≤ (appendStringLoop n s).length := by
  induction n with
  | zero =>
    intro s hs
    cases s with
    | nil => simp
    | cons b t => simp at hs
  | succ n ih =>
    intro s hs
    cases s with
    | nil => simp
    | cons b t =>
      have ht : t.length ≤ n := by simpa using hs
      have hsize := DecodeRune_size_le (b :: t)
      have htake := DecodeRune_take4 (b :: t)
      have hdrop : ∀ k, ((b :: t).drop (k + 1)).length ≤ n := by
        intro k
        simp only [List.drop_succ_cons, List.length_drop]
        omega
      simp only [appendStringLoop, htake]
      split_ifs with h1 h2 h3 h4
      · have := ih t ht
        simp only [List.length_cons]
        omega
      · have := ih t ht
        have he : 1 ≤ (escapeByte b).length := by
          unfold escapeByte
          split_ifs <;> simp
        simp only [List.length_append, List.length_cons]
        omega
      · have := ih t ht
        simp only [List.length_append, List.length_cons, List.length_nil]
        omega
      · have := ih _ (show ((b :: t).drop (DecodeRune (b :: t)).2).length ≤ n by
          simp only [List.length_drop, List.length_cons]
          have : (DecodeRune (b :: t)).2 ≠ 0 := by
            intro h0
            have hv : ¬((DecodeRune (b :: t)).1 = RuneError ∧ (DecodeRune (b :: t)).2 = 1) := h3
            obtain ⟨tl, _, hsz, _⟩ := DecodeRune_valid b t (by omega) hv
            omega
          omega)
        simp only [List.length_append, List.length_cons, List.length_nil, List.length_drop] at this ⊢
        omega
      · have hne : (DecodeRune (b :: t)).2 ≠ 0 := by
          intro h0
          have hv : ¬((DecodeRune (b :: t)).1 = RuneError ∧ (DecodeRune (b :: t)).2 = 1) := h3
          obtain ⟨tl, _, hsz, _⟩ := DecodeRune_valid b t (by omega) hv
          omega
        have := ih ((b :: t).drop (DecodeRune (b :: t)).2) (by
          simp only [List.length_drop, List.length_cons]
          omega)
        simp only [List.length_append, List.length_take, List.length_cons, List.length_drop] at this ⊢
        omega

/-- `unquote` on what `appendString` wrote between the quotes. -/
theorem unquote_appendString (s rest : GoString) :
    unquote (appendStringLoop s.length s ++ 0x22 :: rest) = some (coerceUTF8 s, rest) := by
  unfold unquote coerceUTF8
  apply unquote_appendStringLoop s.length s rest _ (le_refl _)
  have := length_le_appendStringLoop s.length s (le_refl _)
  simp only [List.length_append, List.length_cons]
  omega

/-- A quote is not white space. -/
theorem skipSpace_quote (rest : GoString) : skipSpace (0x22 :: rest) = 0x22 :: rest := by
  simp [skipSpace, isSpace, Fin.coe_ofNat_eq_mod]

/-- A string literal written by `appendString` is read as the coerced string. -/
theorem parseValue_string (f depth : Nat) (s rest : GoString) :
    parseValue (f + 1) depth (appendString s ++ rest) = some (.string (coerceUTF8 s), rest) := by
  have h : appendString s ++ rest = 0x22 :: (appendStringLoop s.length s ++ 0x22 :: rest) := by
    simp [appendString]
  rw [h]
  simp only [parseValue, skipSpace_quote]
  simp [Fin.coe_ofNat_eq_mod, unquote_appendString]

/-- A field written by the struct encoder, followed by a comma, is read as
one member and the members after it. -/
theorem parseMembers_field (f depth : Nat) (name : String) (value more : GoString) :
    parseMembers (f + 2) depth (encodeField name value ++ 0x2C :: more) =
      (parseMembers (f + 1) depth more).map
        (fun mr => ((coerceUTF8 (ascii name), .string (coerceUTF8 value)) :: mr.1, mr.2)) := by
  have h : encodeField name value ++ 0x2C :: more =
      0x22 :: (appendStringLoop (ascii name).length (ascii name) ++
        0x22 :: 0x3A :: (appendString value ++ 0x2C :: more)) := by
    simp [encodeField, appendString]
  have hcolon : skipSpace ((0x3A : Byte) :: (appendString value ++ 0x2C :: more)) =
      0x3A :: (appendString value ++ 0x2C :: more) := by
    simp [skipSpace, isSpace, Fin.coe_ofNat_eq_mod]
  have hcomma : skipSpace ((0x2C : Byte) :: more) = 0x2C :: more := by
    simp [skipSpace, isSpace, Fin.coe_ofNat_eq_mod]
  rw [h, parseMembers]
  simp only [skipSpace_quote, unquote_appendString, hcolon, parseValue_string, hcomma]
  simp [Fin.coe_ofNat_eq_mod]

/-- A field written by the struct encoder, followed by the closing brace, is
read as the last member. -/
theorem parseMembers_last (f depth : Nat) (name : String) (value more : GoString) :
    parseMembers (f + 2) depth (encodeField name value ++ 0x7D :: more) =
      some ([(coerceUTF8 (ascii name), .string (coerceUTF8 value))], more) := by
  have h : encodeField name value ++ 0x7D :: more =
      0x22 :: (appendStringLoop (ascii name).length (ascii name) ++
        0x22 :: 0x3A :: (appendString value ++ 0x7D :: more)) := by
    simp [encodeField, appendString]
  have hcolon : skipSpace ((0x3A : Byte) :: (appendString value ++ 0x7D :: more)) =
      0x3A :: (appendString value ++ 0x7D :: more) := by
    simp [skipSpace, isSpace, Fin.coe_ofNat_eq_mod]
  have hbrace : skipSpace ((0x7D : Byte) :: more) = 0x7D :: more := by
    simp [skipSpace, isSpace, Fin.coe_ofNat_eq_mod]
  rw [h, parseMembers]
  simp only [skipSpace_quote, unquote_appendString, hcolon, parseValue_string, hbrace]
  simp [Fin.coe_ofNat_eq_mod]

/-- An opening brace followed by a key starts the members of an object. -/
theorem parseValue_object (f depth : Nat) (tl : GoString) (hdepth : depth + 1 ≤ maxNestingDepth) :
    parseValue (f + 1) depth (0x7B :: 0x22 :: tl) =
      (parseMembers f (depth + 1) (0x22 :: tl)).map (fun mr => (.object mr.1, mr.2)) := by
  have hopen : skipSpace ((0x7B : Byte) :: 0x22 :: tl) = 0x7B :: 0x22 :: tl := by
    simp [skipSpace, isSpace, Fin.coe_ofNat_eq_mod]
  have hd : ¬ depth + 1 > maxNestingDepth := by omega
  rw [parseValue]
  simp only [hopen, skipSpace_quote]
  simp [Fin.coe_ofNat_eq_mod, hd]

/-- The tree that the decoder reads from the encoding of a document. -/
theorem parseTop_marshalWriteDocument (d : WriteDocument) :
    parseTop (marshalWriteDocument d) = some (.object
      [(ascii "id", .string (coerceUTF8 d.ID)),
       (ascii "customerId", .string (coerceUTF8 d.CustomerId)),
       (ascii "Title", .string (coerceUTF8 d.Title)),
       (ascii "UserName", .string (coerceUTF8 d.UserName)),
       (ascii "EmailAddress", .string (coerceUTF8 d.EmailAddress)),
       (ascii "PhoneNumber", .string (coerceUTF8 d.PhoneNumber)),
       (ascii "CreationDate", .string (coerceUTF8 d.CreationDate))]) := by
  have hlen : ∃ f, (marshalWriteDocument d).length + 1 = f + 9 := by
    refine ⟨(marshalWriteDocument d).length - 8, ?_⟩
    have : 8 ≤ (marshalWriteDocument d).length := by
      simp only [marshalWriteDocument, List.length_append, List.length_cons, List.length_nil]
      omega
    omega
  obtain ⟨f, hf⟩ := hlen
  unfold parseTop
  rw [hf]
  have hshape : marshalWriteDocument d = 0x7B :: (encodeField "id" d.ID ++ 0x2C ::
      (encodeField "customerId" d.CustomerId ++ 0x2C ::
      (encodeField "Title" d.Title ++ 0x2C ::
      (encodeField "UserName" d.UserName ++ 0x2C ::
      (encodeField "EmailAddress" d.EmailAddress ++ 0x2C ::
      (encodeField "PhoneNumber" d.PhoneNumber ++ 0x2C ::
      (encodeField "CreationDate" d.CreationDate ++ 0x7D :: []))))))) := by
    simp [marshalWriteDocument]
  have hk1 : coerceUTF8 (ascii "id") = ascii "id" := by decide
  have hk2 : coerceUTF8 (ascii "customerId") = ascii "customerId" := by decide
  have hk3 : coerceUTF8 (ascii "Title") = ascii "Title" := by decide
  have hk4 : coerceUTF8 (ascii "UserName") = ascii "UserName" := by decide
  have hk5 : coerceUTF8 (ascii "EmailAddress") = ascii "EmailAddress" := by decide
  have hk6 : coerceUTF8 (ascii "PhoneNumber") = ascii "PhoneNumber" := by decide
  have hk7 : coerceUTF8 (ascii "CreationDate") = ascii "CreationDate" := by decide
  have hstart : ∀ (name : String) (value rest : GoString), ∃ tl,
      encodeField name value ++ rest = 0x22 :: tl := by
    intro name value rest
    exact ⟨_, by simp [encodeField, appendString]; rfl⟩
  rw [hshape]
  obtain ⟨tl, htl⟩ := hstart "id" d.ID (0x2C ::
      (encodeField "customerId" d.CustomerId ++ 0x2C ::
      (encodeField "Title" d.Title ++ 0x2C ::
      (encodeField "UserName" d.UserName ++ 0x2C ::
      (encodeField "EmailAddress" d.EmailAddress ++ 0x2C ::
      (encodeField "PhoneNumber" d.PhoneNumber ++ 0x2C ::
      (encodeField "CreationDate" d.CreationDate ++ 0x7D :: [])))))))
  rw [htl, parseValue_object (f + 8) 0 tl (by decide), ← htl]
  rw [parseMembers_field (f + 6), parseMembers_field (f + 5), parseMembers_field (f + 4),
    parseMembers_field (f + 3), parseMembers_field (f + 2), parseMembers_field (f + 1),
    parseMembers_last f]
  simp [hk1, hk2, hk3, hk4, hk5, hk6, hk7, skipSpace]

/-- What `json.Unmarshal` into the struct of `ReadItem` makes of the encoding
of a document of `main`: no error; the six fields with a common key hold the
coerced strings; `FirstName` and `LastName` stay empty; `UserName` is
skipped. -/
theorem Unmarshal_marshalWriteDocument (d : WriteDocument) :
    Unmarshal (marshalWriteDocument d) ReadDocument.zero =
      (none,
        { ID := coerceUTF8 d.ID,
          CustomerId := coerceUTF8 d.CustomerId,
          Title := coerceUTF8 d.Title,
          FirstName := [],
          LastName := [],
          EmailAddress := coerceUTF8 d.EmailAddress,
          PhoneNumber := coerceUTF8 d.PhoneNumber,
          CreationDate := coerceUTF8 d.CreationDate }) := by
  have h1 : findField (ascii "id") = some .ID := by decide
  have h2 : findField (ascii "customerId") = some .CustomerId := by decide
  have h3 : findField (ascii "Title") = some .Title := by decide
  have h4 : findField (ascii "UserName") = none := by decide
  have h5 : findField (ascii "EmailAddress") = some .EmailAddress := by decide
  have h6 : findField (ascii "PhoneNumber") = some .PhoneNumber := by decide
  have h7 : findField (ascii "CreationDate") = some .CreationDate := by decide
  unfold Unmarshal
  rw [parseTop_marshalWriteDocument]
  simp only [List.foldl, storeMember, h1, h2, h3, h4, h5, h6, h7, ReadDocument.set,
    ReadDocument.zero]

/-! ### Writing a document and reading it back -/

/-- C8 as stated fails: a document whose id is the byte `0xFF` is encoded by
`json.Marshal` with the escape of `RuneError` in place of the byte, and is read
back with the three bytes of `RuneError` as id, not with its own id. -/
theorem readBack_keys_counterexample :
    (Unmarshal (marshalWriteDocument invalidIdDocument) ReadDocument.zero).1 = none ∧
    (Unmarshal (marshalWriteDocument invalidIdDocument) ReadDocument.zero).2.ID =
      [0xEF, 0xBF, 0xBD] ∧
    (Unmarshal (marshalWriteDocument invalidIdDocument) ReadDocument.zero).2.ID ≠
      invalidIdDocument.ID := by
  rw [Unmarshal_marshalWriteDocument]
  decide

/-- C8, amended: for every document of the shape built in `main` whose `ID` and
`CustomerId` are valid UTF-8, the payload that `CreateItem` makes of it is
decoded by `json.Unmarshal` into the struct of `ReadItem` without error, and
the decoded `CustomerId` and `ID` are those of the document. -/
theorem readBack_keys (d : WriteDocument) (hID : ValidString d.ID = true)
    (hCustomerId : ValidString d.CustomerId = true) :
    Marshal (.document d) = .ok (marshalWriteDocument d) ∧
    (Unmarshal (marshalWriteDocument d) ReadDocument.zero).1 = none ∧
    (Unmarshal (marshalWriteDocument d) ReadDocument.zero).2.CustomerId = d.CustomerId ∧
    (Unmarshal (marshalWriteDocument d) ReadDocument.zero).2.ID = d.ID := by
  rw [Unmarshal_marshalWriteDocument]
  exact ⟨rfl, rfl, coerceLoop_valid _ _ hCustomerId, coerceLoop_valid _ _ hID⟩

/-- A witness for C8: the document of `main`, with id `"1"` and customer id
`"1"`, is read back with customer id `"1"`. -/
theorem readBack_keys_witness :
    ValidString item.ID = true ∧ ValidString item.CustomerId = true ∧
    (Unmarshal (marshalWriteDocument item) ReadDocument.zero).2.CustomerId = ascii "1" :=
  ⟨by decide, by decide, (readBack_keys item (by decide) (by decide)).2.2.1⟩

/-- C9 as stated fails: a title that is not valid UTF-8 (the byte `0x80`) is
not read back as it was written, because `json.Marshal` writes the escape of
`RuneError` in its place; and the document of `main` has the field `UserName`
with value `testUser` while the record read back has no field of that name, so
its fields are not those of the document. -/
theorem roundTrip_counterexample :
    (Unmarshal (marshalWriteDocument invalidTitleDocument) ReadDocument.zero).2.Title ≠
      invalidTitleDocument.Title ∧
    (Unmarshal (marshalWriteDocument item) ReadDocument.zero).2.fields ≠ item.fields ∧
    ("UserName", ascii "testUser") ∈ item.fields ∧
    (∀ value, ("UserName", value) ∉
      (Unmarshal (marshalWriteDocument item) ReadDocument.zero).2.fields) := by
  rw [Unmarshal_marshalWriteDocument, Unmarshal_marshalWriteDocument]
  refine ⟨by decide, by decide, by decide, ?_⟩
  intro value
  simp [ReadDocument.fields]

/-- C9, amended: for every document of the shape built in `main` whose `ID`,
`CustomerId`, `Title`, `EmailAddress`, `PhoneNumber` and `CreationDate` are
valid UTF-8, encoding it as `CreateItem` does and decoding the result as
`ReadItem` does succeeds and gives a record equal to the document in each of
these six fields. -/
theorem roundTrip_common_fields (d : WriteDocument) (hID : ValidString d.ID = true)
    (hCustomerId : ValidString d.CustomerId = true) (hTitle : ValidString d.Title = true)
    (hEmailAddress : ValidString d.EmailAddress = true)
    (hPhoneNumber : ValidString d.PhoneNumber = true)
    (hCreationDate : ValidString d.CreationDate = true) :
    Marshal (.document d) = .ok (marshalWriteDocument d) ∧
    (Unmarshal (marshalWriteDocument d) ReadDocument.zero).1 = none ∧
    (Unmarshal (marshalWriteDocument d) ReadDocument.zero).2.ID = d.ID ∧
    (Unmarshal (marshalWriteDocument d) ReadDocument.zero).2.CustomerId = d.CustomerId ∧
    (Unmarshal (marshalWriteDocument d) ReadDocument.zero).2.Title = d.Title ∧
    (Unmarshal (marshalWriteDocument d) ReadDocument.zero).2.EmailAddress = d.EmailAddress ∧
    (Unmarshal (marshalWriteDocument d) ReadDocument.zero).2.PhoneNumber = d.PhoneNumber ∧
    (Unmarshal (marshalWriteDocument d) ReadDocument.zero).2.CreationDate = d.CreationDate := by
  rw [Unmarshal_marshalWriteDocument]
  exact ⟨rfl, rfl, coerceLoop_valid _ _ hID, coerceLoop_valid _ _ hCustomerId,
    coerceLoop_valid _ _ hTitle, coerceLoop_valid _ _ hEmailAddress,
    coerceLoop_valid _ _ hPhoneNumber, coerceLoop_valid _ _ hCreationDate⟩

/-- A witness for C9: the document of `main` is read back with its title. -/
theorem roundTrip_common_fields_witness :
    ValidString item.ID = true ∧ ValidString item.CustomerId = true ∧
    ValidString item.Title = true ∧ ValidString item.EmailAddress = true ∧
    ValidString item.PhoneNumber = true ∧ ValidString item.CreationDate = true ∧
    (Unmarshal (marshalWriteDocument item) ReadDocument.zero).2.Title = ascii "Mr" :=
  ⟨by decide, by decide, by decide, by decide, by decide, by decide,
    (roundTrip_common_fields item (by decide) (by decide) (by decide) (by decide)
      (by decide) (by decide)).2.2.2.2.1⟩

end GoCosmos
